import Mathlib

/-!
Verification of the Moonlight overlay-metrics-to-JSON exporter
(`scripts/metrics_to_json.py`).

The script is embedded shallowly over `List Char`:

* each `re.search` call becomes a hand-translated matcher over character
  lists (every pattern in the script is deterministic maximal-munch except
  the codec capture and the lazy `.*?` forms, which are modelled with their
  exact backtracking behaviour);
* Python `float(...)` on a `[\d.]+` capture becomes `pyFloatDD : List Char →
  Option Rat` (`none` models the uncaught `ValueError` on inputs such as
  `1.2.3`), with decimal literals read exactly as rationals;
* Python `int(...)` on a digit capture is total (`natOfDigits`); the general
  `int(str)` used on timestamp components becomes `pyInt` (whitespace, an
  optional sign and digit-group underscores, as CPython accepts);
* `datetime.now()` is passed in explicitly as a `PyDateTime` value; the
  `datetime(...)` constructor's range validation becomes `datetimeMk`;
* dictionaries with optional keys become structures of `Option` fields, and
  the final empty-group/falsy-value filter of `parse_metrics` becomes the
  `Option`-valued group fields of `MetricsRecord`.
-/

/-- Character class of the regex `\s` / Python `str.strip()` default set,
restricted to ASCII. -/
def isPySpace (c : Char) : Bool :=
  c = ' ' || c = '\t' || c = '\n' || c = '\r' || c = '\x0b' || c = '\x0c'

/-- Character class `[\d.]` used by the decimal captures. -/
def isDigitDot (c : Char) : Bool :=
  c.isDigit || c = '.'

/-- Python `str.strip()`: drop leading and trailing whitespace. -/
def pyStrip (l : List Char) : List Char :=
  ((l.dropWhile isPySpace).reverse.dropWhile isPySpace).reverse

/-- Value of a digit string, as computed by `int` on a `\d+` capture
(the empty list gives 0; captures are never empty). -/
def natOfDigits (l : List Char) : Nat :=
  l.foldl (fun acc c => acc * 10 + (c.toNat - 48)) 0

/-- Python `float(...)` applied to a capture of the class `[\d.]+`:
defined iff the capture has at most one dot and at least one digit,
in which case the decimal literal is read exactly as a rational.
Returns `none` for inputs such as `1.2.3` or `.`, on which the script's
unhandled `ValueError` aborts parsing. -/
def pyFloatDD (s : List Char) : Option Rat :=
  let a := s.takeWhile (fun c => c ≠ '.')
  match s.drop a.length with
  | [] => if s.isEmpty then none else some (mkRat (natOfDigits a) 1)
  | c :: b =>
    if c = '.' then
      if b.contains '.' then none
      else if a.isEmpty && b.isEmpty then none
      else some (mkRat (natOfDigits a * 10 ^ b.length + natOfDigits b) (10 ^ b.length))
    else none

/-- Digit run with CPython's single-underscore-between-digits rule,
accumulating the value; the first character was already consumed. -/
def digitsUnd : List Char → Nat → Option Nat
  | [], acc => some acc
  | '_' :: c :: rest, acc =>
    if c.isDigit then digitsUnd rest (acc * 10 + (c.toNat - 48)) else none
  | '_' :: [], _ => none
  | c :: rest, acc =>
    if c.isDigit then digitsUnd rest (acc * 10 + (c.toNat - 48)) else none

/-- Unsigned part of Python `int(str)`: a nonempty digit string with
optional single underscores between digits. -/
def pyIntDigits : List Char → Option Nat
  | [] => none
  | c :: rest => if c.isDigit then digitsUnd rest (c.toNat - 48) else none

/-- Python `int(str)`: surrounding whitespace, an optional sign, then
digits (with digit-group underscores); `none` models `ValueError`. -/
def pyInt (s : List Char) : Option Int :=
  match pyStrip s with
  | '+' :: rest => (pyIntDigits rest).map (fun n => (n : Int))
  | '-' :: rest => (pyIntDigits rest).map (fun n => -(n : Int))
  | rest => (pyIntDigits rest).map (fun n => (n : Int))

/-- Wall-clock date and time, standing for a `datetime.datetime` value. -/
structure PyDateTime where
  year : Nat
  month : Nat
  day : Nat
  hour : Nat
  minute : Nat
  second : Nat
  microsecond : Nat
deriving DecidableEq, Repr

/-- Decimal digits of `n`, with explicit fuel so the definition reduces in
the kernel. -/
def natDigitsAux : Nat → Nat → List Char → List Char
  | 0, _, acc => acc
  | fuel + 1, n, acc =>
    if n < 10 then Char.ofNat (48 + n % 10) :: acc
    else natDigitsAux fuel (n / 10) (Char.ofNat (48 + n % 10) :: acc)

/-- Decimal representation of a natural number. -/
def natRepr (n : Nat) : List Char :=
  natDigitsAux (n + 1) n []

/-- Zero-pad a decimal representation on the left to width `w`. -/
def padLeft (w : Nat) (n : Nat) : List Char :=
  let d := natRepr n
  List.replicate (w - d.length) '0' ++ d

/-- Number of days in a month, as validated by the `datetime` constructor. -/
def daysInMonth (y m : Nat) : Nat :=
  if m = 2 then
    if y % 4 = 0 && (y % 100 ≠ 0 || y % 400 = 0) then 29 else 28
  else if m = 4 || m = 6 || m = 9 || m = 11 then 30
  else 31

/-- Constructor `datetime(year, month, day, hour, minute, second)`:
validates every component, `none` models the raised `ValueError`. -/
def datetimeMk (y mo d : Nat) (h mi s : Int) : Option PyDateTime :=
  if 1 ≤ y && y ≤ 9999 && 1 ≤ mo && mo ≤ 12 && 1 ≤ d && d ≤ daysInMonth y mo
      && 0 ≤ h && h ≤ 23 && 0 ≤ mi && mi ≤ 59 && 0 ≤ s && s ≤ 59 then
    some ⟨y, mo, d, h.toNat, mi.toNat, s.toNat, 0⟩
  else none

/-- Method `datetime.isoformat()`: `YYYY-MM-DDTHH:MM:SS`, with a
`.ffffff` microsecond suffix only when the microsecond field is nonzero. -/
def isoformat (t : PyDateTime) : List Char :=
  padLeft 4 t.year ++ '-' :: padLeft 2 t.month ++ '-' :: padLeft 2 t.day
    ++ 'T' :: padLeft 2 t.hour ++ ':' :: padLeft 2 t.minute ++ ':' :: padLeft 2 t.second
    ++ (if t.microsecond = 0 then [] else '.' :: padLeft 6 t.microsecond)

/-- Timestamp resolution of `parse_metrics` (lines 41-54 of the script):
a truthy `log_timestamp` is split on `:`, its first three components are
passed through `int` and combined with today's date; any `ValueError` or
`IndexError` falls back to `datetime.now()`. -/
def resolveTimestamp (log_timestamp : Option (List Char)) (now : PyDateTime) : List Char :=
  match log_timestamp with
  | none => isoformat now
  | some l =>
    if l.isEmpty then isoformat now
    else
      let parts := l.splitOn ':'
      if 3 ≤ parts.length then
        match pyInt (parts.getD 0 []), pyInt (parts.getD 1 []), pyInt (parts.getD 2 []) with
        | some hh, some mm, some ss =>
          match datetimeMk now.year now.month now.day hh mm ss with
          | some dt => isoformat dt
          | none => isoformat now
        | _, _, _ => isoformat now
      else isoformat now

/-- Literal token of a regex pattern: consume `p` exactly, fail otherwise. -/
def lit (p : List Char) (s : List Char) : Option (List Char) :=
  if p.isPrefixOf s then some (s.drop p.length) else none

/-- Capture group `(C+)` for a character class `q`: a greedy nonempty run.
Every use in the script is followed by a token outside the class, so the
maximal run is exactly what the regex engine captures. -/
def takeWhile1 (q : Char → Bool) (s : List Char) : Option (List Char × List Char) :=
  let t := s.takeWhile q
  if t.isEmpty then none else some (t, s.drop t.length)

/-- Token `\s+`: at least one whitespace character, consumed greedily. -/
def ws1 (s : List Char) : Option (List Char) :=
  match s with
  | [] => none
  | c :: rest => if isPySpace c then some ((c :: rest).dropWhile isPySpace) else none

/-- Leftmost-match search: `re.search` tries the pattern at every start
position from the left, including the end-of-text position. -/
def searchFrom (m : List Char → Option α) : List Char → Option α
  | [] => m []
  | c :: rest =>
    match m (c :: rest) with
    | some x => some x
    | none => searchFrom m rest

/-- Capture of `\(Codec:\s*([^)]+)\)` given the text `u` strictly between
`Codec:` and the closing parenthesis: the greedy `\s*` backtracks by one
character when `u` is pure whitespace so that `[^)]+` stays nonempty. -/
def codecCapture (u : List Char) : List Char :=
  let v := u.dropWhile isPySpace
  if v.isEmpty then u.drop (u.length - 1) else v

/-- Matcher for `Video stream:\s*(\d+)x(\d+)\s+([\d.]+)\s*FPS\s*\(Codec:\s*([^)]+)\)`
at the current position (script line 66). Captures are returned as strings. -/
def videoHere (s : List Char) : Option (List Char × List Char × List Char × List Char) := do
  let s ← lit "Video stream:".toList s
  let (w, s) ← takeWhile1 Char.isDigit (s.dropWhile isPySpace)
  let s ← lit "x".toList s
  let (h, s) ← takeWhile1 Char.isDigit s
  let s ← ws1 s
  let (f, s) ← takeWhile1 isDigitDot s
  let s ← lit "FPS".toList (s.dropWhile isPySpace)
  let s ← lit "(Codec:".toList (s.dropWhile isPySpace)
  let u := s.takeWhile (fun c => c ≠ ')')
  let _ ← lit ")".toList (s.drop u.length)
  if u.isEmpty then none else pure (w, h, f, codecCapture u)

/-- Matcher for `Bitrate:\s*([\d.]+)\s*Mbps,\s*Peak\s*\((\d+)s\):\s*([\d.]+)`
(script line 79). -/
def bitrateHere (s : List Char) : Option (List Char × List Char × List Char) := do
  let s ← lit "Bitrate:".toList s
  let (b, s) ← takeWhile1 isDigitDot (s.dropWhile isPySpace)
  let s ← lit "Mbps,".toList (s.dropWhile isPySpace)
  let s ← lit "Peak".toList (s.dropWhile isPySpace)
  let s ← lit "(".toList (s.dropWhile isPySpace)
  let (w, s) ← takeWhile1 Char.isDigit s
  let s ← lit "s):".toList s
  let (p, _) ← takeWhile1 isDigitDot (s.dropWhile isPySpace)
  pure (b, w, p)

/-- Matcher family `PREFIX:\s*([\d.]+)\s*SUFFIX` shared by the frame-rate,
decode-time and queue-delay patterns. -/
def numBetween (pre suf : List Char) (s : List Char) : Option (List Char) := do
  let s ← lit pre s
  let (x, s) ← takeWhile1 isDigitDot (s.dropWhile isPySpace)
  let _ ← lit suf (s.dropWhile isPySpace)
  pure x

/-- Matcher for `Frames dropped ...:\s*([\d.]+)%` (no `\s*` before `%`). -/
def percentAfter (pre : List Char) (s : List Char) : Option (List Char) := do
  let s ← lit pre s
  let (x, s) ← takeWhile1 isDigitDot (s.dropWhile isPySpace)
  let _ ← lit "%".toList s
  pure x

/-- Matcher for
`Host processing latency min/max/average:\s*([\d.]+)/([\d.]+)/([\d.]+)\s*ms`
(script line 113). -/
def hostLatHere (s : List Char) : Option (List Char × List Char × List Char) := do
  let s ← lit "Host processing latency min/max/average:".toList s
  let (a, s) ← takeWhile1 isDigitDot (s.dropWhile isPySpace)
  let s ← lit "/".toList s
  let (b, s) ← takeWhile1 isDigitDot s
  let s ← lit "/".toList s
  let (c, s) ← takeWhile1 isDigitDot s
  let _ ← lit "ms".toList (s.dropWhile isPySpace)
  pure (a, b, c)

/-- Matcher for `Average network latency:\s*(\d+)\s*ms\s*\(variance:\s*(\d+)\s*ms\)`
(script line 141). -/
def rttHere (s : List Char) : Option (List Char × List Char) := do
  let s ← lit "Average network latency:".toList s
  let (r, s) ← takeWhile1 Char.isDigit (s.dropWhile isPySpace)
  let s ← lit "ms".toList (s.dropWhile isPySpace)
  let s ← lit "(variance:".toList (s.dropWhile isPySpace)
  let (v, s) ← takeWhile1 Char.isDigit (s.dropWhile isPySpace)
  let _ ← lit "ms)".toList (s.dropWhile isPySpace)
  pure (r, v)

/-- Matcher for `Average network latency:\s*N/A` (script line 149). -/
def rttNaHere (s : List Char) : Option Unit := do
  let s ← lit "Average network latency:".toList s
  let _ ← lit "N/A".toList (s.dropWhile isPySpace)
  pure ()

/-- Tail `:\s*([\d.]+)\s*ms` of the rendering-time pattern. -/
def numMs (s : List Char) : Option (List Char) := do
  let (x, s) ← takeWhile1 isDigitDot (s.dropWhile isPySpace)
  let _ ← lit "ms".toList (s.dropWhile isPySpace)
  pure x

/-- Lazy `.*?:` of `Average rendering time.*?:\s*([\d.]+)\s*ms`: extend the
dot-star one character at a time (never across a newline, the search uses
no DOTALL flag here) and take the first colon whose tail matches. -/
def lazyToColonMs : List Char → Option (List Char)
  | [] => none
  | c :: rest =>
    match (if c = ':' then numMs rest else none) with
    | some x => some x
    | none => if c = '\n' then none else lazyToColonMs rest

/-- Matcher for `Average rendering time.*?:\s*([\d.]+)\s*ms` (script line 172). -/
def renderTimeHere (s : List Char) : Option (List Char) := do
  let s ← lit "Average rendering time".toList s
  lazyToColonMs s

/-- Search wrappers, one per `re.search` call of `parse_metrics`. -/
def videoSearch (t : List Char) := searchFrom videoHere t

/-- Search for the bitrate pattern. -/
def bitrateSearch (t : List Char) := searchFrom bitrateHere t

/-- Search for `Incoming frame rate from network:\s*([\d.]+)\s*FPS`. -/
def incomingFpsSearch (t : List Char) :=
  searchFrom (numBetween "Incoming frame rate from network:".toList "FPS".toList) t

/-- Search for `Decoding frame rate:\s*([\d.]+)\s*FPS`. -/
def decodingFpsSearch (t : List Char) :=
  searchFrom (numBetween "Decoding frame rate:".toList "FPS".toList) t

/-- Search for `Rendering frame rate:\s*([\d.]+)\s*FPS`. -/
def renderingFpsSearch (t : List Char) :=
  searchFrom (numBetween "Rendering frame rate:".toList "FPS".toList) t

/-- Search for the combined host-processing-latency pattern. -/
def hostLatSearch (t : List Char) := searchFrom hostLatHere t

/-- Search for `Frames dropped by your network connection:\s*([\d.]+)%`. -/
def netDroppedSearch (t : List Char) :=
  searchFrom (percentAfter "Frames dropped by your network connection:".toList) t

/-- Search for `Frames dropped due to network jitter:\s*([\d.]+)%`. -/
def jitterDroppedSearch (t : List Char) :=
  searchFrom (percentAfter "Frames dropped due to network jitter:".toList) t

/-- Search for the numeric average-network-latency pattern. -/
def rttSearch (t : List Char) := searchFrom rttHere t

/-- Search for the `N/A` average-network-latency pattern. -/
def rttNaSearch (t : List Char) := searchFrom rttNaHere t

/-- Search for `Average decoding time:\s*([\d.]+)\s*ms`. -/
def decodeTimeSearch (t : List Char) :=
  searchFrom (numBetween "Average decoding time:".toList "ms".toList) t

/-- Search for `Average frame queue delay:\s*([\d.]+)\s*ms`. -/
def queueDelaySearch (t : List Char) :=
  searchFrom (numBetween "Average frame queue delay:".toList "ms".toList) t

/-- Search for `Average rendering time.*?:\s*([\d.]+)\s*ms`. -/
def renderTimeSearch (t : List Char) := searchFrom renderTimeHere t

/-- Group `video_stream` of the output record: the four stream fields are
set together from the video match, the three bitrate fields together from
the bitrate match. -/
structure VideoStreamG where
  width : Option Nat
  height : Option Nat
  fps : Option Rat
  codec : Option (List Char)
  bitrate_mbps : Option Rat
  peak_window_seconds : Option Nat
  peak_bitrate_mbps : Option Rat
deriving DecidableEq, Repr

/-- Group `frame_rates`: three independently optional decimal fields. -/
structure FrameRatesG where
  incoming_network_fps : Option Rat
  decoding_fps : Option Rat
  rendering_fps : Option Rat
deriving DecidableEq, Repr

/-- Group `host_processing_latency`: set only as a whole triple. -/
structure HostLatencyG where
  min_ms : Option Rat
  max_ms : Option Rat
  average_ms : Option Rat
deriving DecidableEq, Repr

/-- Group `network`. The round-trip fields distinguish key-absent
(outer `none`) from key-present-with-JSON-null (`some none`). -/
structure NetworkG where
  frames_dropped_percent : Option Rat
  jitter_dropped_percent : Option Rat
  rtt_ms : Option (Option Nat)
  rtt_variance_ms : Option (Option Nat)
deriving DecidableEq, Repr

/-- Group `timing`: three independently optional decimal fields. -/
structure TimingG where
  average_decode_time_ms : Option Rat
  average_queue_delay_ms : Option Rat
  average_render_time_ms : Option Rat
deriving DecidableEq, Repr

/-- Emptiness of the `video_stream` dictionary. -/
def VideoStreamG.isEmpty (g : VideoStreamG) : Bool :=
  g.width.isNone && g.height.isNone && g.fps.isNone && g.codec.isNone
    && g.bitrate_mbps.isNone && g.peak_window_seconds.isNone && g.peak_bitrate_mbps.isNone

/-- Emptiness of the `frame_rates` dictionary. -/
def FrameRatesG.isEmpty (g : FrameRatesG) : Bool :=
  g.incoming_network_fps.isNone && g.decoding_fps.isNone && g.rendering_fps.isNone

/-- Emptiness of the `host_processing_latency` dictionary. -/
def HostLatencyG.isEmpty (g : HostLatencyG) : Bool :=
  g.min_ms.isNone && g.max_ms.isNone && g.average_ms.isNone

/-- Emptiness of the `network` dictionary. -/
def NetworkG.isEmpty (g : NetworkG) : Bool :=
  g.frames_dropped_percent.isNone && g.jitter_dropped_percent.isNone
    && g.rtt_ms.isNone && g.rtt_variance_ms.isNone

/-- Emptiness of the `timing` dictionary. -/
def TimingG.isEmpty (g : TimingG) : Bool :=
  g.average_decode_time_ms.isNone && g.average_queue_delay_ms.isNone
    && g.average_render_time_ms.isNone

/-- Output record of `parse_metrics` after the final filter
`{k: v for k, v in metrics.items() if v}`: every key is optional; a group
key survives only when its dictionary is nonempty, the timestamp key only
when the timestamp string is nonempty. -/
structure MetricsRecord where
  timestamp : Option (List Char)
  video_stream : Option VideoStreamG
  frame_rates : Option FrameRatesG
  host_processing_latency : Option HostLatencyG
  network : Option NetworkG
  timing : Option TimingG
deriving DecidableEq, Repr

/-- Conversion step for an optional capture: key absent stays absent,
a present capture goes through the numeric conversion, whose failure
(`ValueError`) aborts the whole parse. -/
def convO (f : α → Option β) : Option α → Option (Option β)
  | none => some none
  | some x => (f x).map some

/-- Build the `video_stream` dictionary (script lines 66-86). -/
def videoGroup (t : List Char) : Option VideoStreamG := do
  let base ←
    match videoSearch t with
    | none => some ⟨none, none, none, none, none, none, none⟩
    | some (w, h, f, c) => do
      let fv ← pyFloatDD f
      some ⟨some (natOfDigits w), some (natOfDigits h), some fv, some (pyStrip c),
        none, none, none⟩
  match bitrateSearch t with
  | none => some base
  | some (b, w, p) => do
    let bv ← pyFloatDD b
    let pv ← pyFloatDD p
    some { base with
      bitrate_mbps := some bv
      peak_window_seconds := some (natOfDigits w)
      peak_bitrate_mbps := some pv }

/-- Build the `frame_rates` dictionary (script lines 89-110). -/
def frameRatesGroup (t : List Char) : Option FrameRatesG := do
  let a ← convO pyFloatDD (incomingFpsSearch t)
  let b ← convO pyFloatDD (decodingFpsSearch t)
  let c ← convO pyFloatDD (renderingFpsSearch t)
  some ⟨a, b, c⟩

/-- Build the `host_processing_latency` dictionary (script lines 113-122). -/
def hostLatencyGroup (t : List Char) : Option HostLatencyG :=
  match hostLatSearch t with
  | none => some ⟨none, none, none⟩
  | some (a, b, c) => do
    let av ← pyFloatDD a
    let bv ← pyFloatDD b
    let cv ← pyFloatDD c
    some ⟨some av, some bv, some cv⟩

/-- Build the `network` dictionary (script lines 125-152): the numeric
round-trip pattern is tried first, the `N/A` marker only when it fails. -/
def networkGroup (t : List Char) : Option NetworkG := do
  let fd ← convO pyFloatDD (netDroppedSearch t)
  let jd ← convO pyFloatDD (jitterDroppedSearch t)
  match rttSearch t with
  | some (r, v) =>
    some ⟨fd, jd, some (some (natOfDigits r)), some (some (natOfDigits v))⟩
  | none =>
    match rttNaSearch t with
    | some _ => some ⟨fd, jd, some none, some none⟩
    | none => some ⟨fd, jd, none, none⟩

/-- Build the `timing` dictionary (script lines 155-176). -/
def timingGroup (t : List Char) : Option TimingG := do
  let a ← convO pyFloatDD (decodeTimeSearch t)
  let b ← convO pyFloatDD (queueDelaySearch t)
  let c ← convO pyFloatDD (renderTimeSearch t)
  some ⟨a, b, c⟩

/-- Function `parse_metrics(text, log_timestamp)` (script lines 30-181),
with the wall clock passed explicitly. The result is `none` exactly when
an unhandled `ValueError` from a `float(...)` conversion aborts the call. -/
def parse_metrics (text : List Char) (log_timestamp : Option (List Char))
    (now : PyDateTime) : Option MetricsRecord := do
  let ts := resolveTimestamp log_timestamp now
  let vg ← videoGroup text
  let fg ← frameRatesGroup text
  let hg ← hostLatencyGroup text
  let ng ← networkGroup text
  let tg ← timingGroup text
  some {
    timestamp := if ts.isEmpty then none else some ts
    video_stream := if vg.isEmpty then none else some vg
    frame_rates := if fg.isEmpty then none else some fg
    host_processing_latency := if hg.isEmpty then none else some hg
    network := if ng.isEmpty then none else some ng
    timing := if tg.isEmpty then none else some tg }

/-- Test for exactly the 8-character prefix pattern `\d{2}:\d{2}:\d{2}`. -/
def isTs8 : List Char → Bool
  | [a, b, c, d, e, f, g, h] =>
    a.isDigit && b.isDigit && c = ':' && d.isDigit && e.isDigit && f = ':'
      && g.isDigit && h.isDigit
  | _ => false

/-- Token `(\d{2}:\d{2}:\d{2})` at the current position: returns the
captured timestamp and the rest. -/
def matchTs2 (s : List Char) : Option (List Char × List Char) :=
  if isTs8 (s.take 8) then some (s.take 8, s.drop 8) else none

/-- Occurrence test for the literal `[METRICS]` anywhere in the text,
realizing the lookahead fragment `.*?\[METRICS\]` under DOTALL. -/
def containsMetricsTag : List Char → Bool
  | [] => false
  | c :: rest => "[METRICS]".toList.isPrefixOf (c :: rest) || containsMetricsTag rest

/-- Lookahead `(?=\d{2}:\d{2}:\d{2}\s*-\s*SDL\s+Info.*?\[METRICS\])` of the
tagged-with-timestamp pattern (script line 198). -/
def headerLA (s : List Char) : Bool :=
  (Option.isSome <| do
    let (_, s) ← matchTs2 s
    let s ← lit "-".toList (s.dropWhile isPySpace)
    let s ← lit "SDL".toList (s.dropWhile isPySpace)
    let s ← ws1 s
    let s ← lit "Info".toList s
    if containsMetricsTag s then some () else none)

/-- Full header `(\d{2}:\d{2}:\d{2})\s*-\s*SDL\s+Info\s*\(\d+\):\s*\[METRICS\]\s*`
of the tagged-with-timestamp pattern, including the greedy `\s*` that
precedes the lazy content group. -/
def headerMatch (s : List Char) : Option (List Char × List Char) := do
  let (ts, s) ← matchTs2 s
  let s ← lit "-".toList (s.dropWhile isPySpace)
  let s ← lit "SDL".toList (s.dropWhile isPySpace)
  let s ← ws1 s
  let s ← lit "Info".toList s
  let s ← lit "(".toList (s.dropWhile isPySpace)
  let (_, s) ← takeWhile1 Char.isDigit s
  let s ← lit "):".toList s
  let s ← lit "[METRICS]".toList (s.dropWhile isPySpace)
  pure (ts, s.dropWhile isPySpace)

/-- Lazy content group `(.*?)` of strategy 1: the shortest extension after
which the header lookahead fires or the anchor `$` matches (`$` holds at
end of text and just before a final newline). Returns the captured
content and the position (suffix) where the match ends. -/
def contentScan1 : List Char → List Char × List Char
  | [] => ([], [])
  | c :: rest =>
    if headerLA (c :: rest) || (c = '\n' && rest.isEmpty) then ([], c :: rest)
    else
      let p := contentScan1 rest
      (c :: p.1, p.2)

/-- Scanner realizing `findall` for the tagged-with-timestamp pattern:
non-overlapping leftmost matches, resuming at each match end. The fuel is
the text length; every match consumes at least one character. -/
def findBlocks1Aux : Nat → List Char → List (List Char × List Char)
  | 0, _ => []
  | _ + 1, [] => []
  | fuel + 1, c :: rest =>
    match headerMatch (c :: rest) with
    | some (ts, body) =>
      let p := contentScan1 body
      (ts, p.1) :: findBlocks1Aux fuel p.2
    | none => findBlocks1Aux fuel rest

/-- All matches of the tagged-with-timestamp pattern (strategy 1). -/
def findBlocks1 (s : List Char) : List (List Char × List Char) :=
  findBlocks1Aux s.length s

/-- Lazy content group of strategy 2, stopping at `(?=\[METRICS\]|$)`. -/
def contentScan2 : List Char → List Char × List Char
  | [] => ([], [])
  | c :: rest =>
    if "[METRICS]".toList.isPrefixOf (c :: rest) || (c = '\n' && rest.isEmpty) then
      ([], c :: rest)
    else
      let p := contentScan2 rest
      (c :: p.1, p.2)

/-- Scanner for `\[METRICS\]\s*(.*?)(?=\[METRICS\]|$)` (script line 207). -/
def findBlocks2Aux : Nat → List Char → List (List Char)
  | 0, _ => []
  | _ + 1, [] => []
  | fuel + 1, c :: rest =>
    if "[METRICS]".toList.isPrefixOf (c :: rest) then
      let p := contentScan2 (((c :: rest).drop 9).dropWhile isPySpace)
      p.1 :: findBlocks2Aux fuel p.2
    else findBlocks2Aux fuel rest

/-- All matches of the bare-marker pattern (strategy 2). -/
def findBlocks2 (s : List Char) : List (List Char) :=
  findBlocks2Aux s.length s

/-- Lazy content group of strategy 3, stopping at `(?=Video stream:|$)`. -/
def contentScan3 : List Char → List Char × List Char
  | [] => ([], [])
  | c :: rest =>
    if "Video stream:".toList.isPrefixOf (c :: rest) || (c = '\n' && rest.isEmpty) then
      ([], c :: rest)
    else
      let p := contentScan3 rest
      (c :: p.1, p.2)

/-- Scanner for `(Video stream:.*?)(?=Video stream:|$)` (script line 214);
the capture includes the marker itself. -/
def findBlocks3Aux : Nat → List Char → List (List Char)
  | 0, _ => []
  | _ + 1, [] => []
  | fuel + 1, c :: rest =>
    if "Video stream:".toList.isPrefixOf (c :: rest) then
      let p := contentScan3 ((c :: rest).drop 13)
      ("Video stream:".toList ++ p.1) :: findBlocks3Aux fuel p.2
    else findBlocks3Aux fuel rest

/-- All matches of the raw fallback pattern (strategy 3). -/
def findBlocks3 (s : List Char) : List (List Char) :=
  findBlocks3Aux s.length s

/-- Strip each strategy-1 match and keep the nonempty ones, paired with
their timestamps. -/
def stripFilter1 (l : List (List Char × List Char)) : List (Option (List Char) × List Char) :=
  l.filterMap (fun p =>
    let s := pyStrip p.2
    if s.isEmpty then none else some (some p.1, s))

/-- Strip each untimestamped match and keep the nonempty ones. -/
def stripFilter2 (l : List (List Char)) : List (Option (List Char) × List Char) :=
  l.filterMap (fun c =>
    let s := pyStrip c
    if s.isEmpty then none else some (none, s))

/-- Function `extract_metrics_blocks(text)` (script lines 184-218): the
second and third strategies run only while the accumulated block list is
still empty. -/
def extract_metrics_blocks (text : List Char) : List (Option (List Char) × List Char) :=
  let b1 := stripFilter1 (findBlocks1 text)
  if b1.isEmpty then
    let b2 := stripFilter2 (findBlocks2 text)
    if b2.isEmpty then stripFilter2 (findBlocks3 text) else b2
  else b1

/-- Driver acceptance test used in both modes (script lines 251 and 321):
a record is kept when its `video_stream` or `frame_rates` key survived
(present groups are nonempty dictionaries, hence truthy). -/
def acceptRecord (r : MetricsRecord) : Bool :=
  r.video_stream.isSome || r.frame_rates.isSome

/-- Shared block loop of both driver modes: parse each block with its
timestamp, keep accepted records; a `ValueError` escaping `parse_metrics`
aborts the program (`none`). -/
def parseBlocks (blocks : List (Option (List Char) × List Char)) (now : PyDateTime) :
    Option (List MetricsRecord) :=
  match blocks with
  | [] => some []
  | (lt, b) :: rest =>
    if b.isEmpty then parseBlocks rest now
    else do
      let m ← parse_metrics b lt now
      let tail ← parseBlocks rest now
      some (if acceptRecord m then m :: tail else tail)

/-- One-shot output shape: a JSON array of records, or a single record
object from the whole-input fallback. -/
inductive OneShotOut where
  | arr : List MetricsRecord → OneShotOut
  | single : MetricsRecord → OneShotOut
deriving DecidableEq, Repr

/-- One-shot mode of `main` (script lines 314-330): extract blocks and emit
the accepted records as an array, or parse the entire input as a single
unlabelled block when no block was found. -/
def oneShot (text : List Char) (now : PyDateTime) : Option OneShotOut :=
  let blocks := extract_metrics_blocks text
  if blocks.isEmpty then (parse_metrics text none now).map OneShotOut.single
  else (parseBlocks blocks now).map OneShotOut.arr

/-- Mutable state of the watch loop (script lines 230-231): the byte
offset of the previous read and the accumulated record list. -/
structure WatchState where
  last_position : Nat
  all_metrics : List MetricsRecord
deriving DecidableEq, Repr

/-- One poll cycle of `read_and_parse_continuous` (script lines 238-258)
on an existing file: read the appended text, and when it has non-whitespace
content, parse its blocks, append accepted records and rewrite the output
file; otherwise leave records and output untouched. Returns the new state
and output-file contents (as a record list). -/
def pollCycle (file : List Char) (st : WatchState) (out : List MetricsRecord)
    (now : PyDateTime) : Option (WatchState × List MetricsRecord) :=
  let new_content := file.drop st.last_position
  let pos := st.last_position + new_content.length
  if (pyStrip new_content).isEmpty then some (⟨pos, st.all_metrics⟩, out)
  else do
    let recs ← parseBlocks (extract_metrics_blocks new_content) now
    some (⟨pos, st.all_metrics ++ recs⟩, st.all_metrics ++ recs)

/-- Helper: the fuelled digit printer never returns an empty list when it
starts from a nonempty accumulator. -/
theorem natDigitsAux_ne_nil (fuel n : Nat) (acc : List Char) (h : acc ≠ []) :
    natDigitsAux fuel n acc ≠ [] := by
  induction fuel generalizing n acc with
  | zero => simpa [natDigitsAux] using h
  | succ fuel ih =>
    simp only [natDigitsAux]
    split
    · simp
    · exact ih _ _ (by simp)

/-- Helper: decimal representations are nonempty. -/
theorem natRepr_ne_nil (n : Nat) : natRepr n ≠ [] := by
  simp only [natRepr, natDigitsAux]
  split
  · simp
  · exact natDigitsAux_ne_nil _ _ _ (by simp)

/-- Helper: padded numbers are nonempty. -/
theorem padLeft_ne_nil (w n : Nat) : padLeft w n ≠ [] := by
  simp only [padLeft]
  intro h
  rcases List.append_eq_nil.mp h with ⟨-, h2⟩
  exact natRepr_ne_nil n h2

/-- Helper: an ISO timestamp string is never empty. -/
theorem isoformat_ne_nil (t : PyDateTime) : isoformat t ≠ [] := by
  simp only [isoformat]
  intro h
  simp only [List.append_eq_nil, List.cons_ne_nil, and_false, false_and] at h

/-- Helper: every branch of the timestamp resolution is an ISO timestamp. -/
theorem resolveTimestamp_ne_nil (lt : Option (List Char)) (now : PyDateTime) :
    resolveTimestamp lt now ≠ [] := by
  unfold resolveTimestamp
  rcases lt with - | l
  · exact isoformat_ne_nil now
  · dsimp only
    split
    · exact isoformat_ne_nil now
    · split
      · split
        · split
          · exact isoformat_ne_nil _
          · exact isoformat_ne_nil now
        · exact isoformat_ne_nil now
      · exact isoformat_ne_nil now

/-- Inversion of a successful `parse_metrics` call into its five group
builders and the shape of the returned record. -/
theorem parse_metrics_inv (text : List Char) (lt : Option (List Char)) (now : PyDateTime)
    (r : MetricsRecord) (h : parse_metrics text lt now = some r) :
    ∃ vg fg hg ng tg,
      videoGroup text = some vg ∧ frameRatesGroup text = some fg ∧
      hostLatencyGroup text = some hg ∧ networkGroup text = some ng ∧
      timingGroup text = some tg ∧
      r = ⟨some (resolveTimestamp lt now),
           if vg.isEmpty then none else some vg,
           if fg.isEmpty then none else some fg,
           if hg.isEmpty then none else some hg,
           if ng.isEmpty then none else some ng,
           if tg.isEmpty then none else some tg⟩ := by
  rcases hvg : videoGroup text with - | vg
  · simp [parse_metrics, hvg] at h
  rcases hfg : frameRatesGroup text with - | fg
  · simp [parse_metrics, hvg, hfg] at h
  rcases hhg : hostLatencyGroup text with - | hg
  · simp [parse_metrics, hvg, hfg, hhg] at h
  rcases hng : networkGroup text with - | ng
  · simp [parse_metrics, hvg, hfg, hhg, hng] at h
  rcases htg : timingGroup text with - | tg
  · simp [parse_metrics, hvg, hfg, hhg, hng, htg] at h
  refine ⟨vg, fg, hg, ng, tg, rfl, rfl, rfl, rfl, rfl, ?_⟩
  have hts : (resolveTimestamp lt now).isEmpty = false := by
    rcases hne : (resolveTimestamp lt now).isEmpty with - | -
    · rfl
    · exact absurd (List.isEmpty_iff.mp hne) (resolveTimestamp_ne_nil lt now)
  simp only [parse_metrics, hvg, hfg, hhg, hng, htg, Option.bind_eq_bind,
    Option.some_bind, Option.some.injEq, hts, Bool.false_eq_true, if_false] at h
  exact h.symm

/-- Characterization of the per-field conversion step. -/
theorem convO_eq_some (f : α → Option β) (o : Option α) (y : Option β) :
    convO f o = some y ↔
      (o = none ∧ y = none) ∨ (∃ x v, o = some x ∧ f x = some v ∧ y = some v) := by
  cases o with
  | none => simp [convO, eq_comm]
  | some x =>
    cases hfx : f x with
    | none => simp [convO, hfx]
    | some v => simp [convO, hfx, eq_comm]

/-- Characterization: the `video_stream` dictionary is empty exactly when
neither of its two patterns matched. -/
theorem videoGroup_empty_iff (t : List Char) (vg : VideoStreamG)
    (h : videoGroup t = some vg) :
    vg.isEmpty = true ↔ (videoSearch t = none ∧ bitrateSearch t = none) := by
  rcases hv : videoSearch t with - | ⟨w, hh, f, c⟩ <;>
    rcases hb : bitrateSearch t with - | ⟨b, bw, bp⟩ <;>
      simp only [videoGroup, hv, hb, Option.bind_eq_bind, Option.some_bind] at h
  · cases h
    simp [VideoStreamG.isEmpty]
  · rcases h1 : pyFloatDD b with - | bv <;> rw [h1] at h
    · simp at h
    rcases h2 : pyFloatDD bp with - | pv <;> rw [h2] at h
    · simp at h
    simp only [Option.bind_eq_bind, Option.some_bind, Option.some.injEq] at h
    cases h
    simp [VideoStreamG.isEmpty, hv]
  · rcases h1 : pyFloatDD f with - | fv <;> rw [h1] at h
    · simp at h
    simp only [Option.bind_eq_bind, Option.some_bind, Option.some.injEq] at h
    cases h
    simp [VideoStreamG.isEmpty, hv]
  · rcases h1 : pyFloatDD f with - | fv <;> rw [h1] at h
    · simp at h
    rcases h2 : pyFloatDD b with - | bv <;> rw [h2] at h
    · simp at h
    rcases h3 : pyFloatDD bp with - | pv <;> rw [h3] at h
    · simp at h
    simp only [Option.bind_eq_bind, Option.some_bind, Option.some.injEq] at h
    cases h
    simp [VideoStreamG.isEmpty, hv]

/-- Characterization: the `frame_rates` dictionary is empty exactly when
none of its three patterns matched. -/
theorem frameRatesGroup_empty_iff (t : List Char) (fg : FrameRatesG)
    (h : frameRatesGroup t = some fg) :
    fg.isEmpty = true ↔
      (incomingFpsSearch t = none ∧ decodingFpsSearch t = none ∧
        renderingFpsSearch t = none) := by
  simp only [frameRatesGroup, Option.bind_eq_bind, Option.bind_eq_some,
    Option.some.injEq] at h
  obtain ⟨a, ha, b, hb, c, hc, h⟩ := h
  cases h
  rcases (convO_eq_some _ _ _).mp ha with ⟨h1, rfl⟩ | ⟨x1, v1, h1, -, rfl⟩ <;>
    rcases (convO_eq_some _ _ _).mp hb with ⟨h2, rfl⟩ | ⟨x2, v2, h2, -, rfl⟩ <;>
      rcases (convO_eq_some _ _ _).mp hc with ⟨h3, rfl⟩ | ⟨x3, v3, h3, -, rfl⟩ <;>
        simp [FrameRatesG.isEmpty, h1, h2, h3]

/-- Characterization: the `host_processing_latency` dictionary is empty
exactly when the combined pattern did not match. -/
theorem hostLatencyGroup_empty_iff (t : List Char) (hg : HostLatencyG)
    (h : hostLatencyGroup t = some hg) :
    hg.isEmpty = true ↔ hostLatSearch t = none := by
  rcases hl : hostLatSearch t with - | ⟨a, b, c⟩ <;>
    simp only [hostLatencyGroup, hl] at h
  · cases h
    simp [HostLatencyG.isEmpty]
  · rcases h1 : pyFloatDD a with - | av <;> rw [h1] at h
    · simp at h
    rcases h2 : pyFloatDD b with - | bv <;> rw [h2] at h
    · simp at h
    rcases h3 : pyFloatDD c with - | cv <;> rw [h3] at h
    · simp at h
    simp only [Option.bind_eq_bind, Option.some_bind, Option.some.injEq] at h
    cases h
    simp [HostLatencyG.isEmpty]

/-- Characterization: the `network` dictionary is empty exactly when none
of its patterns (including the `N/A` form) matched. -/
theorem networkGroup_empty_iff (t : List Char) (ng : NetworkG)
    (h : networkGroup t = some ng) :
    ng.isEmpty = true ↔
      (netDroppedSearch t = none ∧ jitterDroppedSearch t = none ∧
        rttSearch t = none ∧ rttNaSearch t = none) := by
  simp only [networkGroup, Option.bind_eq_bind, Option.bind_eq_some] at h
  obtain ⟨fd, hfd, jd, hjd, h⟩ := h
  rcases hr : rttSearch t with - | ⟨rv, vv⟩ <;> rw [hr] at h
  · rcases hn : rttNaSearch t with - | u <;> rw [hn] at h <;>
      simp only [Option.some.injEq] at h <;> cases h <;>
        rcases (convO_eq_some _ _ _).mp hfd with ⟨h1, rfl⟩ | ⟨x1, v1, h1, -, rfl⟩ <;>
          rcases (convO_eq_some _ _ _).mp hjd with ⟨h2, rfl⟩ | ⟨x2, v2, h2, -, rfl⟩ <;>
            simp [NetworkG.isEmpty, h1, h2, hr, hn]
  · simp only [Option.some.injEq] at h
    cases h
    rcases (convO_eq_some _ _ _).mp hfd with ⟨h1, rfl⟩ | ⟨x1, v1, h1, -, rfl⟩ <;>
      rcases (convO_eq_some _ _ _).mp hjd with ⟨h2, rfl⟩ | ⟨x2, v2, h2, -, rfl⟩ <;>
        simp [NetworkG.isEmpty, h1, h2, hr]

/-- Characterization: the `timing` dictionary is empty exactly when none
of its three patterns matched. -/
theorem timingGroup_empty_iff (t : List Char) (tg : TimingG)
    (h : timingGroup t = some tg) :
    tg.isEmpty = true ↔
      (decodeTimeSearch t = none ∧ queueDelaySearch t = none ∧
        renderTimeSearch t = none) := by
  simp only [timingGroup, Option.bind_eq_bind, Option.bind_eq_some,
    Option.some.injEq] at h
  obtain ⟨a, ha, b, hb, c, hc, h⟩ := h
  cases h
  rcases (convO_eq_some _ _ _).mp ha with ⟨h1, rfl⟩ | ⟨x1, v1, h1, -, rfl⟩ <;>
    rcases (convO_eq_some _ _ _).mp hb with ⟨h2, rfl⟩ | ⟨x2, v2, h2, -, rfl⟩ <;>
      rcases (convO_eq_some _ _ _).mp hc with ⟨h3, rfl⟩ | ⟨x3, v3, h3, -, rfl⟩ <;>
        simp [TimingG.isEmpty, h1, h2, h3]

/-- Helper: a conditionally kept key is present exactly when the emptiness
test is false. -/
theorem ifEmpty_ne_none {γ : Type} (e : Bool) (g : γ) (P : Prop) (hP : e = true ↔ P) :
    ((if e then none else some g) ≠ none ↔ ¬ P) := by
  cases e <;> simp_all

/-- Helper: inverting a conditionally kept key. -/
theorem ifEmpty_some {γ : Type} (e : Bool) (v g : γ)
    (h : (if e then none else some v) = some g) : g = v ∧ e = false := by
  cases e <;> simp_all [eq_comm]

/-- C10: for every input text and optional timestamp argument (the empty
string included, which resolves to the wall clock), a record returned by
`parse_metrics` carries a timestamp key holding a nonempty string; the
falsy-value filter never removes the timestamp key. -/
theorem c10_timestamp_always_present (text : List Char) (lt : Option (List Char))
    (now : PyDateTime) (r : MetricsRecord) (h : parse_metrics text lt now = some r) :
    (∃ s, r.timestamp = some s ∧ s ≠ []) ∧
      (lt = some [] → r.timestamp = some (isoformat now)) := by
  obtain ⟨vg, fg, hg, ng, tg, -, -, -, -, -, rfl⟩ := parse_metrics_inv _ _ _ _ h
  constructor
  · exact ⟨resolveTimestamp lt now, rfl, resolveTimestamp_ne_nil lt now⟩
  · rintro rfl
    rfl

/-- Witness for C10 at a concrete input. -/
theorem c10_timestamp_always_present_witness :
    ∃ r, parse_metrics [] (some []) ⟨2026, 10, 12, 9, 8, 7, 0⟩ = some r ∧
      (∃ s, r.timestamp = some s ∧ s ≠ []) ∧
      r.timestamp = some (isoformat ⟨2026, 10, 12, 9, 8, 7, 0⟩) := by
  have h : parse_metrics [] (some []) ⟨2026, 10, 12, 9, 8, 7, 0⟩ =
      some ⟨some "2026-10-12T09:08:07".toList, none, none, none, none, none⟩ := by
    decide
  have hc := c10_timestamp_always_present [] (some []) ⟨2026, 10, 12, 9, 8, 7, 0⟩ _ h
  exact ⟨_, h, hc.1, hc.2 rfl⟩

/-- C3: each of the five group keys is present in a returned record exactly
when at least one pattern of that group matched, and a present group is
never empty. -/
theorem c3_groups_present_iff_recognized (text : List Char) (lt : Option (List Char))
    (now : PyDateTime) (r : MetricsRecord) (h : parse_metrics text lt now = some r) :
    (r.video_stream ≠ none ↔ (videoSearch text ≠ none ∨ bitrateSearch text ≠ none)) ∧
    (r.frame_rates ≠ none ↔ (incomingFpsSearch text ≠ none ∨ decodingFpsSearch text ≠ none ∨
      renderingFpsSearch text ≠ none)) ∧
    (r.host_processing_latency ≠ none ↔ hostLatSearch text ≠ none) ∧
    (r.network ≠ none ↔ (netDroppedSearch text ≠ none ∨ jitterDroppedSearch text ≠ none ∨
      rttSearch text ≠ none ∨ rttNaSearch text ≠ none)) ∧
    (r.timing ≠ none ↔ (decodeTimeSearch text ≠ none ∨ queueDelaySearch text ≠ none ∨
      renderTimeSearch text ≠ none)) ∧
    (∀ g, r.video_stream = some g → g.isEmpty = false) ∧
    (∀ g, r.frame_rates = some g → g.isEmpty = false) ∧
    (∀ g, r.host_processing_latency = some g → g.isEmpty = false) ∧
    (∀ g, r.network = some g → g.isEmpty = false) ∧
    (∀ g, r.timing = some g → g.isEmpty = false) := by
  obtain ⟨vg, fg, hg, ng, tg, hvg, hfg, hhg, hng, htg, rfl⟩ := parse_metrics_inv _ _ _ _ h
  refine ⟨?_, ?_, ?_, ?_, ?_, ?_, ?_, ?_, ?_, ?_⟩
  · exact (ifEmpty_ne_none _ _ _ (videoGroup_empty_iff _ _ hvg)).trans not_and_or
  · exact (ifEmpty_ne_none _ _ _ (frameRatesGroup_empty_iff _ _ hfg)).trans
      (not_and_or.trans (or_congr_right not_and_or))
  · exact ifEmpty_ne_none _ _ _ (hostLatencyGroup_empty_iff _ _ hhg)
  · exact (ifEmpty_ne_none _ _ _ (networkGroup_empty_iff _ _ hng)).trans
      (not_and_or.trans (or_congr_right (not_and_or.trans (or_congr_right not_and_or))))
  · exact (ifEmpty_ne_none _ _ _ (timingGroup_empty_iff _ _ htg)).trans
      (not_and_or.trans (or_congr_right not_and_or))
  · intro g hgg
    obtain ⟨rfl, he⟩ := ifEmpty_some _ _ _ hgg
    exact he
  · intro g hgg
    obtain ⟨rfl, he⟩ := ifEmpty_some _ _ _ hgg
    exact he
  · intro g hgg
    obtain ⟨rfl, he⟩ := ifEmpty_some _ _ _ hgg
    exact he
  · intro g hgg
    obtain ⟨rfl, he⟩ := ifEmpty_some _ _ _ hgg
    exact he
  · intro g hgg
    obtain ⟨rfl, he⟩ := ifEmpty_some _ _ _ hgg
    exact he

/-- Witness for C3 at a concrete input with two recognized groups. -/
theorem c3_groups_present_iff_recognized_witness :
    ∃ r, parse_metrics "Decoding frame rate: 59.94 FPS".toList none
        ⟨2026, 10, 12, 9, 8, 7, 0⟩ = some r ∧
      (r.frame_rates ≠ none ↔ (incomingFpsSearch "Decoding frame rate: 59.94 FPS".toList ≠ none ∨
        decodingFpsSearch "Decoding frame rate: 59.94 FPS".toList ≠ none ∨
        renderingFpsSearch "Decoding frame rate: 59.94 FPS".toList ≠ none)) ∧
      (∀ g, r.frame_rates = some g → g.isEmpty = false) := by
  have h : parse_metrics "Decoding frame rate: 59.94 FPS".toList none
      ⟨2026, 10, 12, 9, 8, 7, 0⟩ =
      some ⟨some "2026-10-12T09:08:07".toList, none,
        some ⟨none, some (mkRat 5994 100), none⟩, none, none, none⟩ := by
    decide
  have hc := c3_groups_present_iff_recognized _ none ⟨2026, 10, 12, 9, 8, 7, 0⟩ _ h
  exact ⟨_, h, hc.2.1, hc.2.2.2.2.2.2.1⟩

/-- Helper: a search succeeds when the pattern matches at the current
position. -/
theorem searchFrom_ne_none_of_here {γ : Type} (m : List Char → Option γ) (l : List Char)
    (h : m l ≠ none) : searchFrom m l ≠ none := by
  cases l with
  | nil => simpa [searchFrom] using h
  | cons c rest =>
    rcases hm : m (c :: rest) with - | x
    · exact absurd hm h
    · simp [searchFrom, hm]

/-- Helper: a search succeeds when the pattern matches at some position. -/
theorem searchFrom_ne_none_append {γ : Type} (m : List Char → Option γ) (a b : List Char)
    (h : m b ≠ none) : searchFrom m (a ++ b) ≠ none := by
  induction a with
  | nil => exact searchFrom_ne_none_of_here m b h
  | cons c rest ih =>
    rcases hm : m (c :: (rest ++ b)) with - | x
    · simpa [searchFrom, hm] using ih
    · simp [searchFrom, hm]

/-- Helper: a search skips a prefix on which the pattern matches nowhere. -/
theorem searchFrom_append_of_none {γ : Type} (m : List Char → Option γ) (pre l : List Char)
    (h : ∀ n, n < pre.length → m (pre.drop n ++ l) = none) :
    searchFrom m (pre ++ l) = searchFrom m l := by
  induction pre with
  | nil => rfl
  | cons c rest ih =>
    have h0 : m (c :: (rest ++ l)) = none := by simpa using h 0 (by simp)
    have hrest : ∀ n, n < rest.length → m (rest.drop n ++ l) = none := by
      intro n hn
      simpa using h (n + 1) (by simpa using Nat.succ_lt_succ hn)
    simpa [searchFrom, h0] using ih hrest

/-- Helper: a literal consumes itself. -/
theorem lit_self (p s : List Char) : lit p (p ++ s) = some s := by
  simp [lit, List.isPrefixOf_iff_prefix, List.prefix_append, List.drop_left]

/-- Helper: a digit-or-dot character is not whitespace. -/
theorem not_space_of_digitdot (c : Char) (h : isDigitDot c = true) : isPySpace c = false := by
  cases hsp : isPySpace c
  · rfl
  · exfalso
    have hc : ((((c = ' ' ∨ c = '\t') ∨ c = '\n') ∨ c = '\x0d') ∨ c = '\x0b') ∨ c = '\x0c' := by
      simpa [isPySpace] using hsp
    rcases hc with ⟨⟨⟨⟨rfl | rfl⟩ | rfl⟩ | rfl⟩ | rfl⟩ | rfl <;> exact absurd h (by decide)

/-- Helper: a digit is not whitespace. -/
theorem not_space_of_digit (c : Char) (h : c.isDigit = true) : isPySpace c = false :=
  not_space_of_digitdot c (by simp [isDigitDot, h])

/-- Helper: a nonempty class run followed by a non-class character is
captured exactly. -/
theorem takeWhile1_run (q : Char → Bool) (w : List Char) (y : Char) (t : List Char)
    (hw : ∀ c ∈ w, q c = true) (hw0 : w ≠ []) (hy : q y = false) :
    takeWhile1 q (w ++ y :: t) = some (w, y :: t) := by
  have htw : (w ++ y :: t).takeWhile q = w := by
    rw [List.takeWhile_append_of_pos hw, List.takeWhile_cons, if_neg (by simp [hy])]
    simp
  have hne : w.isEmpty = false := by
    cases w
    · exact absurd rfl hw0
    · rfl
  simp only [takeWhile1, htw, hne, Bool.false_eq_true, if_false]
  rw [List.drop_left]

/-- Helper: whitespace skipping runs through a whitespace block and stops
at a non-whitespace head. -/
theorem dropWhile_run (w : List Char) (y : Char) (t : List Char)
    (hw : ∀ c ∈ w, isPySpace c = true) (hy : isPySpace y = false) :
    (w ++ y :: t).dropWhile isPySpace = y :: t := by
  rw [List.dropWhile_append_of_pos hw, List.dropWhile_cons, if_neg (by simp [hy])]

/-- Characterization of the latency group when the combined pattern
matched: the three conversions succeeded and fill the whole group. -/
theorem hostLatencyGroup_of_match (t : List Char) (a b c : List Char) (hg : HostLatencyG)
    (h : hostLatencyGroup t = some hg) (hl : hostLatSearch t = some (a, b, c)) :
    ∃ av bv cv, pyFloatDD a = some av ∧ pyFloatDD b = some bv ∧ pyFloatDD c = some cv ∧
      hg = ⟨some av, some bv, some cv⟩ := by
  simp only [hostLatencyGroup, hl] at h
  rcases h1 : pyFloatDD a with - | av <;> rw [h1] at h
  · simp at h
  rcases h2 : pyFloatDD b with - | bv <;> rw [h2] at h
  · simp at h
  rcases h3 : pyFloatDD c with - | cv <;> rw [h3] at h
  · simp at h
  simp only [Option.bind_eq_bind, Option.some_bind, Option.some.injEq] at h
  exact ⟨av, bv, cv, rfl, rfl, rfl, h.symm⟩

/-- C5: the host-processing-latency group is populated exactly when the
combined min/max/average pattern matches, in which case it holds exactly
the three converted decimals; without a combined match (a partial line
included) the group is absent. -/
theorem c5_host_latency_all_or_nothing (text : List Char) (lt : Option (List Char))
    (now : PyDateTime) (r : MetricsRecord) (h : parse_metrics text lt now = some r) :
    (hostLatSearch text = none → r.host_processing_latency = none) ∧
    (∀ a b c fa fb fc, hostLatSearch text = some (a, b, c) →
      pyFloatDD a = some fa → pyFloatDD b = some fb → pyFloatDD c = some fc →
      r.host_processing_latency = some ⟨some fa, some fb, some fc⟩) := by
  obtain ⟨vg, fg, hg, ng, tg, -, -, hhg, -, -, rfl⟩ := parse_metrics_inv _ _ _ _ h
  constructor
  · intro hl
    simp only [hostLatencyGroup, hl, Option.some.injEq] at hhg
    simp [← hhg, HostLatencyG.isEmpty]
  · intro a b c fa fb fc hl h1 h2 h3
    obtain ⟨av, bv, cv, ha, hb, hc, rfl⟩ := hostLatencyGroup_of_match _ _ _ _ _ hhg hl
    rw [h1] at ha
    rw [h2] at hb
    rw [h3] at hc
    cases ha
    cases hb
    cases hc
    simp [HostLatencyG.isEmpty]

/-- Witness for C5: a complete latency line fills the group, a partial
latency line leaves it absent. -/
theorem c5_host_latency_all_or_nothing_witness :
    (∃ r, parse_metrics "Host processing latency min/max/average: 1.0/5.0/2.3 ms".toList
        none ⟨2026, 10, 12, 9, 8, 7, 0⟩ = some r ∧
      r.host_processing_latency =
        some ⟨some (mkRat 10 10), some (mkRat 50 10), some (mkRat 23 10)⟩) ∧
    (∃ r, parse_metrics "Host processing latency min: 1.0 ms".toList
        none ⟨2026, 10, 12, 9, 8, 7, 0⟩ = some r ∧
      r.host_processing_latency = none) := by
  constructor
  · have h : parse_metrics "Host processing latency min/max/average: 1.0/5.0/2.3 ms".toList
        none ⟨2026, 10, 12, 9, 8, 7, 0⟩ =
        some ⟨some "2026-10-12T09:08:07".toList, none, none,
          some ⟨some (mkRat 10 10), some (mkRat 50 10), some (mkRat 23 10)⟩, none, none⟩ := by
      decide
    refine ⟨_, h, ?_⟩
    exact (c5_host_latency_all_or_nothing _ none _ _ h).2 "1.0".toList "5.0".toList
      "2.3".toList _ _ _ (by decide) (by decide) (by decide) (by decide)
  · have h : parse_metrics "Host processing latency min: 1.0 ms".toList
        none ⟨2026, 10, 12, 9, 8, 7, 0⟩ =
        some ⟨some "2026-10-12T09:08:07".toList, none, none, none, none, none⟩ := by
      decide
    exact ⟨_, h, (c5_host_latency_all_or_nothing _ none _ _ h).1 (by decide)⟩

/-- C9: a block with a bitrate match but no video-stream match yields a
`video_stream` group holding exactly the three bitrate fields, and such a
record passes the driver's acceptance filter. -/
theorem c9_bitrate_only_video_group (text : List Char) (lt : Option (List Char))
    (now : PyDateTime) (r : MetricsRecord) (b w p : List Char) (fb fp : Rat)
    (hv : videoSearch text = none) (hb : bitrateSearch text = some (b, w, p))
    (hfb : pyFloatDD b = some fb) (hfp : pyFloatDD p = some fp)
    (h : parse_metrics text lt now = some r) :
    r.video_stream = some ⟨none, none, none, none, some fb, some (natOfDigits w), some fp⟩ ∧
      acceptRecord r = true := by
  obtain ⟨vg, fg, hg, ng, tg, hvg, -, -, -, -, rfl⟩ := parse_metrics_inv _ _ _ _ h
  simp only [videoGroup, hv, hb, Option.bind_eq_bind, Option.some_bind, hfb, hfp,
    Option.some.injEq] at hvg
  cases hvg
  constructor
  · simp [VideoStreamG.isEmpty]
  · simp [acceptRecord, VideoStreamG.isEmpty]

/-- Witness for C9 at a concrete bitrate-only block. -/
theorem c9_bitrate_only_video_group_witness :
    ∃ r, parse_metrics "Bitrate: 45.5 Mbps, Peak (5s): 80.2".toList none
        ⟨2026, 10, 12, 9, 8, 7, 0⟩ = some r ∧
      r.video_stream = some ⟨none, none, none, none, some (mkRat 455 10), some 5,
        some (mkRat 802 10)⟩ ∧
      acceptRecord r = true := by
  have h : parse_metrics "Bitrate: 45.5 Mbps, Peak (5s): 80.2".toList none
      ⟨2026, 10, 12, 9, 8, 7, 0⟩ =
      some ⟨some "2026-10-12T09:08:07".toList,
        some ⟨none, none, none, none, some (mkRat 455 10), some 5, some (mkRat 802 10)⟩,
        none, none, none, none⟩ := by
    decide
  have hc := c9_bitrate_only_video_group _ none _ _ "45.5".toList "5".toList "80.2".toList
    (mkRat 455 10) (mkRat 802 10) (by decide) (by decide) (by decide) (by decide) h
  exact ⟨_, h, hc.1, hc.2⟩

/-- Characterization of the network group's round-trip fields from the
two round-trip patterns. -/
theorem networkGroup_rtt_fields (t : List Char) (ng : NetworkG)
    (h : networkGroup t = some ng) (hr : rttSearch t = none) :
    (rttNaSearch t ≠ none → ng.rtt_ms = some none ∧ ng.rtt_variance_ms = some none) ∧
    (rttNaSearch t = none → ng.rtt_ms = none ∧ ng.rtt_variance_ms = none) := by
  simp only [networkGroup, Option.bind_eq_bind, Option.bind_eq_some, hr] at h
  obtain ⟨fd, -, jd, -, h⟩ := h
  rcases hn : rttNaSearch t with - | u <;> rw [hn] at h <;>
    simp only [Option.some.injEq] at h <;> cases h
  · exact ⟨fun hcon => absurd rfl hcon, fun _ => ⟨rfl, rfl⟩⟩
  · exact ⟨fun _ => ⟨rfl, rfl⟩, fun hcon => by cases hcon⟩

/-- C4: a block containing the literal `Average network latency: N/A` line
(and no numeric round-trip match) yields both round-trip keys present with
an explicit null, while a block matching neither round-trip form carries
no round-trip keys at all, and its whole `network` group is dropped when
the two dropped-frames patterns are also absent. -/
theorem c4_na_null_vs_absent :
    (∀ a b lt now r,
      parse_metrics (a ++ "Average network latency: N/A".toList ++ b) lt now = some r →
      rttSearch (a ++ "Average network latency: N/A".toList ++ b) = none →
      ∃ ng, r.network = some ng ∧ ng.rtt_ms = some none ∧ ng.rtt_variance_ms = some none) ∧
    (∀ text lt now r, parse_metrics text lt now = some r →
      rttSearch text = none → rttNaSearch text = none →
      (∀ g, r.network = some g → g.rtt_ms = none ∧ g.rtt_variance_ms = none) ∧
      (netDroppedSearch text = none → jitterDroppedSearch text = none →
        r.network = none)) := by
  constructor
  · intro a b lt now r h hr
    obtain ⟨vg, fg, hg, ng, tg, -, -, -, hng, -, rfl⟩ := parse_metrics_inv _ _ _ _ h
    have hna : rttNaSearch (a ++ "Average network latency: N/A".toList ++ b) ≠ none := by
      rw [List.append_assoc]
      apply searchFrom_ne_none_append
      have hsplit : "Average network latency: N/A".toList ++ b =
          "Average network latency:".toList ++ (' ' :: 'N' :: '/' :: 'A' :: b) := by
        simp
      rw [hsplit]
      intro hcon
      rw [show rttNaHere ("Average network latency:".toList ++ (' ' :: 'N' :: '/' :: 'A' :: b))
          = some () from ?_] at hcon
      · cases hcon
      · simp only [rttNaHere, lit_self, Option.bind_eq_bind, Option.some_bind]
        have hdrop : (' ' :: 'N' :: '/' :: 'A' :: b).dropWhile isPySpace =
            'N' :: '/' :: 'A' :: b := by
          simp [List.dropWhile_cons, isPySpace]
        rw [hdrop]
        have : 'N' :: '/' :: 'A' :: b = "N/A".toList ++ b := by simp
        rw [this, lit_self]
        rfl
    obtain ⟨h1, h2⟩ := (networkGroup_rtt_fields _ _ hng hr).1 hna
    have hne : ng.isEmpty = false := by
      simp [NetworkG.isEmpty, h1]
    exact ⟨ng, by simp [hne], h1, h2⟩
  · intro text lt now r h hr hn
    obtain ⟨vg, fg, hg, ng, tg, -, -, -, hng, -, rfl⟩ := parse_metrics_inv _ _ _ _ h
    obtain ⟨h1, h2⟩ := (networkGroup_rtt_fields _ _ hng hr).2 hn
    constructor
    · intro g hgg
      obtain ⟨rfl, -⟩ := ifEmpty_some _ _ _ hgg
      exact ⟨h1, h2⟩
    · intro hfd hjd
      have he : ng.isEmpty = true := by
        rw [networkGroup_empty_iff _ _ hng]
        exact ⟨hfd, hjd, hr, hn⟩
      simp [he]

/-- Witness for C4 at two concrete blocks. -/
theorem c4_na_null_vs_absent_witness :
    (∃ ng,
      ({ timestamp := some "2026-10-12T09:08:07".toList, video_stream := none,
         frame_rates := none, host_processing_latency := none,
         network := some ⟨none, none, some none, some none⟩,
         timing := none } : MetricsRecord).network = some ng ∧
      ng.rtt_ms = some none ∧ ng.rtt_variance_ms = some none) ∧
    ({ timestamp := some "2026-10-12T09:08:07".toList, video_stream := none,
       frame_rates := none, host_processing_latency := none, network := none,
       timing := none } : MetricsRecord).network = none := by
  constructor
  · have h : parse_metrics ([] ++ "Average network latency: N/A".toList ++ []) none
        ⟨2026, 10, 12, 9, 8, 7, 0⟩ =
        some ⟨some "2026-10-12T09:08:07".toList, none, none, none,
          some ⟨none, none, some none, some none⟩, none⟩ := by
      decide
    exact c4_na_null_vs_absent.1 [] [] none ⟨2026, 10, 12, 9, 8, 7, 0⟩ _ h (by decide)
  · have h : parse_metrics "no relevant lines".toList none ⟨2026, 10, 12, 9, 8, 7, 0⟩ =
        some ⟨some "2026-10-12T09:08:07".toList, none, none, none, none, none⟩ := by
      decide
    exact ((c4_na_null_vs_absent.2 _ none _ _ h (by decide) (by decide)).2
      (by decide) (by decide)).trans rfl

/-- Helper: whitespace stripping is idempotent on the left. -/
theorem dropWhile_dropWhile (p : Char → Bool) (l : List Char) :
    (l.dropWhile p).dropWhile p = l.dropWhile p := by
  induction l with
  | nil => rfl
  | cons c t ih =>
    rcases hp : p c with - | -
    · simp [List.dropWhile_cons, hp]
    · simpa [List.dropWhile_cons, hp] using ih

/-- Helper: stripping after a leading whitespace drop changes nothing. -/
theorem pyStrip_dropWhile (l : List Char) :
    pyStrip (l.dropWhile isPySpace) = pyStrip l := by
  simp [pyStrip, dropWhile_dropWhile]

/-- Helper: a pure-whitespace list strips to nothing. -/
theorem pyStrip_all_space (l : List Char) (h : ∀ c ∈ l, isPySpace c = true) :
    pyStrip l = [] := by
  have h1 : l.dropWhile isPySpace = [] := List.dropWhile_eq_nil_iff.mpr h
  simp [pyStrip, h1]

/-- Helper: stripping a leading whitespace character changes nothing. -/
theorem pyStrip_cons_space (c : Char) (l : List Char) (h : isPySpace c = true) :
    pyStrip (c :: l) = pyStrip l := by
  simp [pyStrip, List.dropWhile_cons, h]

/-- Helper: the backtracked codec capture strips to the same text as the
raw span between `Codec:` and the closing parenthesis. -/
theorem pyStrip_codecCapture (u : List Char) :
    pyStrip (codecCapture u) = pyStrip u := by
  unfold codecCapture
  rcases hv : (u.dropWhile isPySpace).isEmpty with - | -
  · simpa [hv] using pyStrip_dropWhile u
  · have hws : ∀ c ∈ u, isPySpace c = true :=
      List.dropWhile_eq_nil_iff.mp (List.isEmpty_iff.mp hv)
    simp only [hv, if_true]
    rw [pyStrip_all_space _ hws, pyStrip_all_space]
    intro c hc
    exact hws c (List.mem_of_mem_drop hc)

/-- Helper: a run of digit-or-dot characters is not skipped by `\s*`. -/
theorem dropWhile_space_digitdot (w x : List Char) (hw0 : w ≠ [])
    (hw : ∀ c ∈ w, isDigitDot c = true) :
    (w ++ x).dropWhile isPySpace = w ++ x := by
  cases w with
  | nil => exact absurd rfl hw0
  | cons c t =>
    rw [List.cons_append, List.dropWhile_cons,
      if_neg (by simp [not_space_of_digitdot c (hw c (by simp))])]

/-- Helper: a search returns the match found at the current position. -/
theorem searchFrom_here {γ : Type} (m : List Char → Option γ) (l : List Char) (x : γ)
    (h : m l = some x) : searchFrom m l = some x := by
  cases l <;> simp [searchFrom, h]

/-- Well-formed overlay line `Video stream: WxH F FPS (Codec: C)` from the
specification, as a character list. -/
def mkVideoLine (W H F C : List Char) : List Char :=
  "Video stream:".toList ++ ' ' :: (W ++ 'x' :: (H ++ ' ' :: (F ++ ' ' ::
    ("FPS".toList ++ ' ' :: ("(Codec:".toList ++ ' ' :: (C ++ [')']))))))

/-- Evaluation of the video matcher at the head of a well-formed line. -/
theorem videoHere_line (W H F C post : List Char)
    (hW0 : W ≠ []) (hW : ∀ c ∈ W, c.isDigit = true)
    (hH0 : H ≠ []) (hH : ∀ c ∈ H, c.isDigit = true)
    (hF0 : F ≠ []) (hF : ∀ c ∈ F, isDigitDot c = true)
    (hC : ')' ∉ C) :
    videoHere (mkVideoLine W H F C ++ post) =
      some (W, H, F, codecCapture (' ' :: C)) := by
  have hWdd : ∀ c ∈ W, isDigitDot c = true := fun c hc => by simp [isDigitDot, hW c hc]
  have hHdd : ∀ c ∈ H, isDigitDot c = true := fun c hc => by simp [isDigitDot, hH c hc]
  have e0 : mkVideoLine W H F C ++ post = "Video stream:".toList ++ ' ' :: (W ++ 'x' ::
      (H ++ ' ' :: (F ++ ' ' :: ("FPS".toList ++ ' ' :: ("(Codec:".toList ++ ' ' ::
        (C ++ ')' :: post)))))) := by
    simp [mkVideoLine]
  have e1 : List.dropWhile isPySpace (' ' :: (W ++ 'x' :: (H ++ ' ' :: (F ++ ' ' ::
      ("FPS".toList ++ ' ' :: ("(Codec:".toList ++ ' ' :: (C ++ ')' :: post))))))) =
      W ++ 'x' :: (H ++ ' ' :: (F ++ ' ' :: ("FPS".toList ++ ' ' :: ("(Codec:".toList ++
        ' ' :: (C ++ ')' :: post))))) := by
    rw [List.dropWhile_cons, if_pos (by decide)]
    exact dropWhile_space_digitdot W _ hW0 hWdd
  have e2 : takeWhile1 Char.isDigit (W ++ 'x' :: (H ++ ' ' :: (F ++ ' ' ::
      ("FPS".toList ++ ' ' :: ("(Codec:".toList ++ ' ' :: (C ++ ')' :: post)))))) =
      some (W, 'x' :: (H ++ ' ' :: (F ++ ' ' :: ("FPS".toList ++ ' ' ::
        ("(Codec:".toList ++ ' ' :: (C ++ ')' :: post)))))) :=
    takeWhile1_run Char.isDigit W 'x' _ hW hW0 (by decide)
  have e3 : lit "x".toList ('x' :: (H ++ ' ' :: (F ++ ' ' :: ("FPS".toList ++ ' ' ::
      ("(Codec:".toList ++ ' ' :: (C ++ ')' :: post)))))) =
      some (H ++ ' ' :: (F ++ ' ' :: ("FPS".toList ++ ' ' :: ("(Codec:".toList ++ ' ' ::
        (C ++ ')' :: post))))) :=
    lit_self "x".toList _
  have e4 : takeWhile1 Char.isDigit (H ++ ' ' :: (F ++ ' ' :: ("FPS".toList ++ ' ' ::
      ("(Codec:".toList ++ ' ' :: (C ++ ')' :: post))))) =
      some (H, ' ' :: (F ++ ' ' :: ("FPS".toList ++ ' ' :: ("(Codec:".toList ++ ' ' ::
        (C ++ ')' :: post))))) :=
    takeWhile1_run Char.isDigit H ' ' _ hH hH0 (by decide)
  have e5 : ws1 (' ' :: (F ++ ' ' :: ("FPS".toList ++ ' ' :: ("(Codec:".toList ++ ' ' ::
      (C ++ ')' :: post))))) =
      some (F ++ ' ' :: ("FPS".toList ++ ' ' :: ("(Codec:".toList ++ ' ' ::
        (C ++ ')' :: post)))) := by
    simp only [ws1, if_pos (by decide : isPySpace ' ' = true), List.dropWhile_cons,
      Option.some.injEq, if_pos (by decide : isPySpace ' ' = true)]
    exact dropWhile_space_digitdot F _ hF0 hF
  have e6 : takeWhile1 isDigitDot (F ++ ' ' :: ("FPS".toList ++ ' ' :: ("(Codec:".toList ++
      ' ' :: (C ++ ')' :: post)))) =
      some (F, ' ' :: ("FPS".toList ++ ' ' :: ("(Codec:".toList ++ ' ' ::
        (C ++ ')' :: post)))) :=
    takeWhile1_run isDigitDot F ' ' _ hF hF0 (by decide)
  have e7 : List.dropWhile isPySpace (' ' :: ("FPS".toList ++ ' ' :: ("(Codec:".toList ++
      ' ' :: (C ++ ')' :: post)))) =
      "FPS".toList ++ ' ' :: ("(Codec:".toList ++ ' ' :: (C ++ ')' :: post)) := by
    rw [List.dropWhile_cons, if_pos (by decide),
      show "FPS".toList ++ ' ' :: ("(Codec:".toList ++ ' ' :: (C ++ ')' :: post)) =
        'F' :: ("PS".toList ++ ' ' :: ("(Codec:".toList ++ ' ' :: (C ++ ')' :: post)))
        from rfl,
      List.dropWhile_cons, if_neg (by decide)]
  have e8 : lit "FPS".toList ("FPS".toList ++ ' ' :: ("(Codec:".toList ++ ' ' ::
      (C ++ ')' :: post))) =
      some (' ' :: ("(Codec:".toList ++ ' ' :: (C ++ ')' :: post))) :=
    lit_self "FPS".toList _
  have e9 : List.dropWhile isPySpace (' ' :: ("(Codec:".toList ++ ' ' ::
      (C ++ ')' :: post))) = "(Codec:".toList ++ ' ' :: (C ++ ')' :: post) := by
    rw [List.dropWhile_cons, if_pos (by decide),
      show "(Codec:".toList ++ ' ' :: (C ++ ')' :: post) =
        '(' :: ("Codec:".toList ++ ' ' :: (C ++ ')' :: post)) from rfl,
      List.dropWhile_cons, if_neg (by decide)]
  have e10 : lit "(Codec:".toList ("(Codec:".toList ++ ' ' :: (C ++ ')' :: post)) =
      some (' ' :: (C ++ ')' :: post)) :=
    lit_self "(Codec:".toList _
  have e11 : (' ' :: (C ++ ')' :: post)).takeWhile (fun c => c ≠ ')') = ' ' :: C := by
    have hCmem : ∀ a ∈ C, (fun c => decide (c ≠ ')')) a = true := by
      intro a ha
      simp only [ne_eq, decide_eq_true_eq]
      intro hEq
      exact hC (hEq ▸ ha)
    rw [List.takeWhile_cons, if_pos (by simp)]
    rw [List.takeWhile_append_of_pos hCmem, List.takeWhile_cons, if_neg (by simp)]
    simp
  have e12 : (' ' :: (C ++ ')' :: post)).drop (' ' :: C).length = ')' :: post := by
    simp only [List.length_cons, List.drop_succ_cons]
    rw [show (')' :: post) = [')'] ++ post from rfl, ← List.append_assoc,
      show C.length = (C ++ [')']).length - 1 from by simp]
    simp [List.drop_left]
  have e13 : lit ")".toList (')' :: post) = some post := lit_self ")".toList _
  rw [e0]
  simp only [videoHere, Option.bind_eq_bind, lit_self, Option.some_bind, e1, e2, e3, e4,
    e5, e6, e7, e8, e9, e10, e11, e12, e13, List.isEmpty_cons, Bool.false_eq_true,
    if_false]
  rfl

/-- Characterization of the `video_stream` fields when the video pattern
matched: the four stream fields come from its captures, whatever the
bitrate pattern adds. -/
theorem videoGroup_of_match (t : List Char) (vg : VideoStreamG)
    (w h f c : List Char) (fv : Rat)
    (hvg : videoGroup t = some vg) (hv : videoSearch t = some (w, h, f, c))
    (hf : pyFloatDD f = some fv) :
    vg.width = some (natOfDigits w) ∧ vg.height = some (natOfDigits h) ∧
      vg.fps = some fv ∧ vg.codec = some (pyStrip c) ∧ vg.isEmpty = false := by
  rcases hb : bitrateSearch t with - | ⟨b, bw, bp⟩ <;>
    simp only [videoGroup, hv, hb, hf, Option.bind_eq_bind, Option.some_bind] at hvg
  · cases hvg
    simp [VideoStreamG.isEmpty]
  · rcases h1 : pyFloatDD b with - | bv <;> rw [h1] at hvg
    · simp at hvg
    rcases h2 : pyFloatDD bp with - | pv <;> rw [h2] at hvg
    · simp at hvg
    simp only [Option.bind_eq_bind, Option.some_bind, Option.some.injEq] at hvg
    cases hvg
    simp [VideoStreamG.isEmpty]

/-- C1: for a text containing a well-formed `Video stream: WxH F FPS
(Codec: C)` line (and no video-stream match starting earlier), the parsed
record's `video_stream` group carries exactly the integer dimensions `W`
and `H`, the decimal frame rate `F` and the trimmed codec `C`. -/
theorem c1_video_stream_fields (pre post W H F C : List Char)
    (lt : Option (List Char)) (now : PyDateTime) (r : MetricsRecord) (fv : Rat)
    (hW0 : W ≠ []) (hW : ∀ c ∈ W, c.isDigit = true)
    (hH0 : H ≠ []) (hH : ∀ c ∈ H, c.isDigit = true)
    (hF : pyFloatDD F = some fv) (hFd : ∀ c ∈ F, isDigitDot c = true)
    (hC : ')' ∉ C)
    (hpre : ∀ n, n < pre.length →
      videoHere ((pre.drop n) ++ (mkVideoLine W H F C ++ post)) = none)
    (h : parse_metrics (pre ++ (mkVideoLine W H F C ++ post)) lt now = some r) :
    ∃ g, r.video_stream = some g ∧ g.width = some (natOfDigits W) ∧
      g.height = some (natOfDigits H) ∧ g.fps = some fv ∧
      g.codec = some (pyStrip C) := by
  have hF0 : F ≠ [] := by
    intro hnil
    rw [hnil] at hF
    simp [pyFloatDD] at hF
  have hsearch : videoSearch (pre ++ (mkVideoLine W H F C ++ post)) =
      some (W, H, F, codecCapture (' ' :: C)) := by
    unfold videoSearch
    rw [searchFrom_append_of_none videoHere pre _ hpre]
    exact searchFrom_here _ _ _ (videoHere_line W H F C post hW0 hW hH0 hH hF0 hFd hC)
  obtain ⟨vg, fg, hg, ng, tg, hvg, -, -, -, -, rfl⟩ := parse_metrics_inv _ _ _ _ h
  obtain ⟨h1, h2, h3, h4, h5⟩ := videoGroup_of_match _ _ _ _ _ _ _ hvg hsearch hF
  refine ⟨vg, by simp [h5], h1, h2, h3, ?_⟩
  rw [h4, pyStrip_codecCapture, pyStrip_cons_space ' ' C (by decide)]

/-- Witness for C1 at the concrete line
`Video stream: 1920x1080 60.00 FPS (Codec: H.264)`. -/
theorem c1_video_stream_fields_witness :
    ∃ r g, parse_metrics (([] : List Char) ++ (mkVideoLine "1920".toList "1080".toList
        "60.00".toList "H.264".toList ++ "\n".toList)) none ⟨2026, 10, 12, 9, 8, 7, 0⟩ =
        some r ∧
      r.video_stream = some g ∧ g.width = some 1920 ∧ g.height = some 1080 ∧
      g.fps = some (mkRat 6000 100) ∧ g.codec = some "H.264".toList := by
  have h : parse_metrics (([] : List Char) ++ (mkVideoLine "1920".toList "1080".toList
      "60.00".toList "H.264".toList ++ "\n".toList)) none ⟨2026, 10, 12, 9, 8, 7, 0⟩ =
      some ⟨some "2026-10-12T09:08:07".toList,
        some ⟨some 1920, some 1080, some (mkRat 6000 100), some "H.264".toList,
          none, none, none⟩, none, none, none, none⟩ := by
    decide
  obtain ⟨g, h1, h2, h3, h4, h5⟩ := c1_video_stream_fields [] "\n".toList "1920".toList
    "1080".toList "60.00".toList "H.264".toList none ⟨2026, 10, 12, 9, 8, 7, 0⟩ _
    (mkRat 6000 100) (by decide) (by decide) (by decide) (by decide) (by decide)
    (by decide) (by decide) (fun n hn => absurd hn (Nat.not_lt_zero n)) h
  refine ⟨_, g, h, h1, ?_, ?_, ?_, ?_⟩
  · rw [h2]
    decide
  · rw [h3]
    decide
  · exact h4
  · rw [h5]
    decide

/-- C6 (amended): when the supplied log timestamp is nonempty, splits on
`:` into at least three components, and its first three components parse
as integers forming a valid time of day, the record's timestamp combines
them with today's date; in every other case (fewer than three components,
unparsable components, out-of-range values) the parser falls back to the
wall clock and never raises. Extra components beyond the third are
ignored, not treated as malformed. -/
theorem c6_timestamp_resolution (lt : List Char) (now : PyDateTime)
    (text : List Char) (r : MetricsRecord)
    (h : parse_metrics text (some lt) now = some r) :
    (∀ hh mm ss dt, lt ≠ [] → 3 ≤ (lt.splitOn ':').length →
      pyInt ((lt.splitOn ':').getD 0 []) = some hh →
      pyInt ((lt.splitOn ':').getD 1 []) = some mm →
      pyInt ((lt.splitOn ':').getD 2 []) = some ss →
      datetimeMk now.year now.month now.day hh mm ss = some dt →
      r.timestamp = some (isoformat dt)) ∧
    ((¬ ∃ hh mm ss dt, lt ≠ [] ∧ 3 ≤ (lt.splitOn ':').length ∧
        pyInt ((lt.splitOn ':').getD 0 []) = some hh ∧
        pyInt ((lt.splitOn ':').getD 1 []) = some mm ∧
        pyInt ((lt.splitOn ':').getD 2 []) = some ss ∧
        datetimeMk now.year now.month now.day hh mm ss = some dt) →
      r.timestamp = some (isoformat now)) := by
  obtain ⟨vg, fg, hg, ng, tg, -, -, -, -, -, rfl⟩ := parse_metrics_inv _ _ _ _ h
  constructor
  · intro hh mm ss dt hne hlen h0 h1 h2 hdt
    have hemp : lt.isEmpty = false := by
      cases lt
      · exact absurd rfl hne
      · rfl
    rw [List.getD_eq_getElem?_getD] at h0 h1 h2
    simp [resolveTimestamp, hemp, hlen, h0, h1, h2, hdt]
  · intro hno
    rcases hemp : lt.isEmpty with - | -
    · have hne : lt ≠ [] := by
        intro hn
        rw [hn] at hemp
        cases hemp
      by_cases hlen : 3 ≤ (lt.splitOn ':').length
      · rcases h0 : pyInt (((lt.splitOn ':'))[0]?.getD []) with - | hh
        · simp [resolveTimestamp, hemp, hlen, h0]
        rcases h1 : pyInt (((lt.splitOn ':'))[1]?.getD []) with - | mm
        · simp [resolveTimestamp, hemp, hlen, h0, h1]
        rcases h2 : pyInt (((lt.splitOn ':'))[2]?.getD []) with - | ss
        · simp [resolveTimestamp, hemp, hlen, h0, h1, h2]
        rcases hdt : datetimeMk now.year now.month now.day hh mm ss with - | dt
        · simp [resolveTimestamp, hemp, hlen, h0, h1, h2, hdt]
        · refine absurd ⟨hh, mm, ss, dt, hne, hlen, ?_, ?_, ?_, hdt⟩ hno <;>
            rw [List.getD_eq_getElem?_getD] <;> assumption
      · simp [resolveTimestamp, hemp, hlen]
    · simp [resolveTimestamp, List.isEmpty_iff.mp hemp]

/-- Witness for C6 at a valid and at an out-of-range concrete timestamp. -/
theorem c6_timestamp_resolution_witness :
    (∃ r, parse_metrics [] (some "10:20:30".toList) ⟨2026, 10, 12, 9, 8, 7, 0⟩ = some r ∧
      r.timestamp = some (isoformat ⟨2026, 10, 12, 10, 20, 30, 0⟩)) ∧
    (∃ r, parse_metrics [] (some "99:20:30".toList) ⟨2026, 10, 12, 9, 8, 7, 0⟩ = some r ∧
      r.timestamp = some (isoformat ⟨2026, 10, 12, 9, 8, 7, 0⟩)) := by
  constructor
  · have h : parse_metrics [] (some "10:20:30".toList) ⟨2026, 10, 12, 9, 8, 7, 0⟩ =
        some ⟨some "2026-10-12T10:20:30".toList, none, none, none, none, none⟩ := by
      decide
    exact ⟨_, h, (c6_timestamp_resolution _ _ _ _ h).1 10 20 30 ⟨2026, 10, 12, 10, 20, 30, 0⟩
      (by decide) (by decide) (by decide) (by decide) (by decide) (by decide)⟩
  · have h : parse_metrics [] (some "99:20:30".toList) ⟨2026, 10, 12, 9, 8, 7, 0⟩ =
        some ⟨some "2026-10-12T09:08:07".toList, none, none, none, none, none⟩ := by
      decide
    refine ⟨_, h, (c6_timestamp_resolution _ _ _ _ h).2 ?_⟩
    rintro ⟨hh, mm, ss, dt, -, -, h0, h1, h2, hdt⟩
    rw [show pyInt (("99:20:30".toList.splitOn ':').getD 0 []) = some 99 from by decide]
      at h0
    cases h0
    rw [show pyInt (("99:20:30".toList.splitOn ':').getD 1 []) = some 20 from by decide]
      at h1
    cases h1
    rw [show pyInt (("99:20:30".toList.splitOn ':').getD 2 []) = some 30 from by decide]
      at h2
    cases h2
    rw [show datetimeMk 2026 10 12 99 20 30 = none from by decide] at hdt
    cases hdt

/-- C6 counterexample: the malformed four-component timestamp
`01:02:03:04` does not fall back to the wall clock; the parser silently
combines its first three components with today's date. -/
theorem c6_counterexample_four_components :
    (("01:02:03:04".toList.splitOn ':').length = 4 ∧
      ∃ r, parse_metrics [] (some "01:02:03:04".toList) ⟨2026, 10, 12, 9, 8, 7, 555⟩ =
          some r ∧
        r.timestamp = some "2026-10-12T01:02:03".toList ∧
        r.timestamp ≠ some (isoformat ⟨2026, 10, 12, 9, 8, 7, 555⟩)) := by
  refine ⟨by decide, ⟨some "2026-10-12T01:02:03".toList, none, none, none, none, none⟩,
    by decide, rfl, by decide⟩

/-- Helper: an empty input parses to a record holding only a timestamp. -/
theorem parse_metrics_nil (now : PyDateTime) :
    parse_metrics [] none now =
      some ⟨some (isoformat now), none, none, none, none, none⟩ := by
  have hts : (isoformat now).isEmpty = false := by
    cases hiso : isoformat now
    · exact absurd hiso (isoformat_ne_nil now)
    · rfl
  simp only [parse_metrics, resolveTimestamp, videoGroup, frameRatesGroup,
    hostLatencyGroup, networkGroup, timingGroup, videoSearch, bitrateSearch,
    incomingFpsSearch, decodingFpsSearch, renderingFpsSearch, hostLatSearch,
    netDroppedSearch, jitterDroppedSearch, rttSearch, rttNaSearch,
    decodeTimeSearch, queueDelaySearch, renderTimeSearch, searchFrom]
  rw [show videoHere [] = none from rfl, show bitrateHere [] = none from rfl,
    show numBetween "Incoming frame rate from network:".toList "FPS".toList [] = none
      from rfl,
    show numBetween "Decoding frame rate:".toList "FPS".toList [] = none from rfl,
    show numBetween "Rendering frame rate:".toList "FPS".toList [] = none from rfl,
    show hostLatHere [] = none from rfl,
    show percentAfter "Frames dropped by your network connection:".toList [] = none
      from rfl,
    show percentAfter "Frames dropped due to network jitter:".toList [] = none from rfl,
    show rttHere [] = none from rfl, show rttNaHere [] = none from rfl,
    show numBetween "Average decoding time:".toList "ms".toList [] = none from rfl,
    show numBetween "Average frame queue delay:".toList "ms".toList [] = none from rfl,
    show renderTimeHere [] = none from rfl]
  simp [hts, convO, VideoStreamG.isEmpty, FrameRatesG.isEmpty, HostLatencyG.isEmpty,
    NetworkG.isEmpty, TimingG.isEmpty]

/-- C7 (amended): in one-shot mode, when the extractor finds no block and
the whole-input parse does not abort on a malformed numeric capture, the
driver emits that whole-input parse as a single record object; for empty
input this record holds only a timestamp. -/
theorem c7_single_record_fallback :
    (∀ text now r, extract_metrics_blocks text = [] →
      parse_metrics text none now = some r →
      oneShot text now = some (OneShotOut.single r)) ∧
    (∀ now, oneShot [] now =
      some (OneShotOut.single ⟨some (isoformat now), none, none, none, none, none⟩)) := by
  have hmain : ∀ text now r, extract_metrics_blocks text = [] →
      parse_metrics text none now = some r →
      oneShot text now = some (OneShotOut.single r) := by
    intro text now r hb hp
    simp [oneShot, hb, hp]
  refine ⟨hmain, fun now => hmain [] now _ rfl (parse_metrics_nil now)⟩

/-- Witness for C7 on a concrete marker-free input. -/
theorem c7_single_record_fallback_witness :
    oneShot "just some log noise".toList ⟨2026, 10, 12, 9, 8, 7, 0⟩ =
      some (OneShotOut.single ⟨some "2026-10-12T09:08:07".toList,
        none, none, none, none, none⟩) :=
  c7_single_record_fallback.1 "just some log noise".toList ⟨2026, 10, 12, 9, 8, 7, 0⟩
    _ (by decide) (by decide)

/-- C7 counterexample: on the marker-free input
`Decoding frame rate: 1.2.3 FPS` the extractor finds no block, yet the
driver emits nothing at all: the capture `1.2.3` makes `float(...)` raise
an uncaught `ValueError` instead of producing a single record object. -/
theorem c7_counterexample_float_error :
    extract_metrics_blocks "Decoding frame rate: 1.2.3 FPS".toList = [] ∧
      oneShot "Decoding frame rate: 1.2.3 FPS".toList ⟨2026, 10, 12, 9, 8, 7, 0⟩ =
        none := by
  decide

/-- Helper: every block the extractor returns is nonempty after stripping. -/
theorem extract_blocks_snd_ne_nil (text : List Char) (lt : Option (List Char))
    (b : List Char) (h : (lt, b) ∈ extract_metrics_blocks text) : b ≠ [] := by
  have h1 : ∀ (l : List (List Char × List Char)) (q : Option (List Char) × List Char),
      q ∈ stripFilter1 l → q.2 ≠ [] := by
    intro l q hq
    obtain ⟨a, -, ha⟩ := List.mem_filterMap.mp hq
    dsimp only at ha
    rcases he : (pyStrip a.2).isEmpty with - | - <;> rw [he] at ha
    · simp only [Bool.false_eq_true, if_false, Option.some.injEq] at ha
      rw [← ha]
      dsimp only
      intro hn
      rw [hn] at he
      cases he
    · simp at ha
  have h2 : ∀ (l : List (List Char)) (q : Option (List Char) × List Char),
      q ∈ stripFilter2 l → q.2 ≠ [] := by
    intro l q hq
    obtain ⟨a, -, ha⟩ := List.mem_filterMap.mp hq
    dsimp only at ha
    rcases he : (pyStrip a).isEmpty with - | - <;> rw [he] at ha
    · simp only [Bool.false_eq_true, if_false, Option.some.injEq] at ha
      rw [← ha]
      dsimp only
      intro hn
      rw [hn] at he
      cases he
    · simp at ha
  simp only [extract_metrics_blocks] at h
  split at h
  · split at h
    · exact h2 _ _ h
    · exact h2 _ _ h
  · exact h1 _ _ h

/-- C8: one watch-mode poll cycle, modelled on the state (read offset,
accumulated records) and output-file contents. Appending one complete
accepted block to the monitored file appends exactly one record to the
list and rewrites the output to that list; a cycle that reads no new
non-whitespace content leaves both the record list and the output file
untouched. -/
theorem c8_poll_cycle_step :
    (∀ (file newText : List Char) (st : WatchState) (out : List MetricsRecord)
        (now : PyDateTime) (lt : Option (List Char)) (b : List Char) (r : MetricsRecord),
      st.last_position = file.length →
      pyStrip newText ≠ [] →
      extract_metrics_blocks newText = [(lt, b)] →
      parse_metrics b lt now = some r →
      acceptRecord r = true →
      pollCycle (file ++ newText) st out now =
        some (⟨file.length + newText.length, st.all_metrics ++ [r]⟩,
          st.all_metrics ++ [r])) ∧
    (∀ (file : List Char) (st : WatchState) (out : List MetricsRecord) (now : PyDateTime),
      st.last_position ≤ file.length →
      pyStrip (file.drop st.last_position) = [] →
      pollCycle file st out now = some (⟨file.length, st.all_metrics⟩, out)) := by
  constructor
  · intro file newText st out now lt b r hpos hws hext hp hacc
    have hdrop : (file ++ newText).drop file.length = newText := List.drop_left file newText
    have hwse : (pyStrip newText).isEmpty = false := by
      cases hx : pyStrip newText
      · exact absurd hx hws
      · rfl
    have hb : b ≠ [] := extract_blocks_snd_ne_nil newText lt b (by rw [hext]; simp)
    have hbe : b.isEmpty = false := by
      cases b
      · exact absurd rfl hb
      · rfl
    simp [pollCycle, hpos, hdrop, hwse, hext, parseBlocks, hbe, hp, hacc]
  · intro file st out now hle hws
    have hwse : (pyStrip (file.drop st.last_position)).isEmpty = true := by
      rw [hws]
      rfl
    simp only [pollCycle, hwse, if_true, List.length_drop]
    have hlen2 : st.last_position + (file.length - st.last_position) = file.length := by
      omega
    rw [hlen2]

/-- Witness for C8 at a concrete appended block and a concrete quiet cycle. -/
theorem c8_poll_cycle_step_witness :
    (∃ r, parse_metrics "Decoding frame rate: 60.00 FPS".toList none
        ⟨2026, 10, 12, 9, 8, 7, 0⟩ = some r ∧
      pollCycle ("old".toList ++ "[METRICS] Decoding frame rate: 60.00 FPS".toList)
          ⟨3, []⟩ [] ⟨2026, 10, 12, 9, 8, 7, 0⟩ =
        some (⟨3 + "[METRICS] Decoding frame rate: 60.00 FPS".toList.length, [] ++ [r]⟩,
          [] ++ [r])) ∧
    pollCycle "abc".toList ⟨3, []⟩ [] ⟨2026, 10, 12, 9, 8, 7, 0⟩ =
      some (⟨3, []⟩, []) := by
  constructor
  · have hp : parse_metrics "Decoding frame rate: 60.00 FPS".toList none
        ⟨2026, 10, 12, 9, 8, 7, 0⟩ =
        some ⟨some "2026-10-12T09:08:07".toList, none,
          some ⟨none, some (mkRat 6000 100), none⟩, none, none, none⟩ := by
      decide
    refine ⟨_, hp, c8_poll_cycle_step.1 "old".toList _ ⟨3, []⟩ [] _ none
      "Decoding frame rate: 60.00 FPS".toList _ (by decide) (by decide) (by decide)
      hp (by decide)⟩
  · exact c8_poll_cycle_step.2 "abc".toList ⟨3, []⟩ [] ⟨2026, 10, 12, 9, 8, 7, 0⟩
      (by decide) (by decide)

/-- Helper: occurrence test for the timestamp window pattern at any
position of a text. -/
def hasTsSub : List Char → Bool
  | [] => false
  | c :: rest => (matchTs2 (c :: rest)).isSome || hasTsSub rest

/-- Helper: a valid timestamp window has exactly eight characters. -/
theorem isTs8_length (ts : List Char) (h : isTs8 ts = true) : ts.length = 8 := by
  rcases ts with - | ⟨a, - | ⟨b, - | ⟨c, - | ⟨d, - | ⟨e, - | ⟨f, - | ⟨g, - | ⟨i, - | ⟨j, tl⟩⟩⟩⟩⟩⟩⟩⟩⟩ <;>
    first
    | rfl
    | (exfalso; simp [isTs8] at h)

/-- Helper: a valid timestamp window never contains a newline. -/
theorem isTs8_no_nl (l : List Char) (h : isTs8 l = true) (hmem : '\n' ∈ l) : False := by
  rcases l with - | ⟨a, - | ⟨b, - | ⟨c, - | ⟨d, - | ⟨e, - | ⟨f, - | ⟨g, - | ⟨i, - | ⟨j, tl⟩⟩⟩⟩⟩⟩⟩⟩⟩
  all_goals try simp [isTs8] at h
  simp only [List.mem_cons, List.not_mem_nil, or_false] at hmem
  rcases hmem with rfl | rfl | rfl | rfl | rfl | rfl | rfl | rfl <;> simp_all

/-- Helper: the timestamp token consumes a valid eight-character window. -/
theorem matchTs2_append (ts r : List Char) (h : isTs8 ts = true) :
    matchTs2 (ts ++ r) = some (ts, r) := by
  have hlen : ts.length = 8 := isTs8_length ts h
  unfold matchTs2
  rw [← hlen, List.take_left, List.drop_left, if_pos h]

/-- Helper: a window containing a newline is not a timestamp. -/
theorem matchTs2_none_of_nl (u : List Char) (h : '\n' ∈ u.take 8) :
    matchTs2 u = none := by
  have hfalse : isTs8 (u.take 8) = false := by
    cases hts : isTs8 (u.take 8)
    · rfl
    · exact (isTs8_no_nl _ hts h).elim
  simp [matchTs2, hfalse]

/-- Helper: a failed timestamp window stays failed under any extension of
at least eight characters. -/
theorem matchTs2_append_none (a b : List Char) (h8 : 8 ≤ a.length)
    (h : matchTs2 a = none) : matchTs2 (a ++ b) = none := by
  have hfalse : isTs8 (a.take 8) = false := by
    cases hts : isTs8 (a.take 8)
    · rfl
    · exfalso
      have hsome : matchTs2 a = some (a.take 8, a.drop 8) := by simp [matchTs2, hts]
      rw [h] at hsome
      cases hsome
  simp [matchTs2, List.take_append_of_le_length h8, hfalse]

/-- Helper: the lookahead fails wherever its timestamp token fails. -/
theorem headerLA_false_of_none (u : List Char) (h : matchTs2 u = none) :
    headerLA u = false := by
  simp [headerLA, h]

/-- Helper: a text free of timestamp windows fails the token at every
position. -/
theorem hasTsSub_drop (l : List Char) (h : hasTsSub l = false) (n : Nat) :
    matchTs2 (l.drop n) = none := by
  induction l generalizing n with
  | nil =>
    rw [List.drop_nil]
    rfl
  | cons c rest ih =>
    simp only [hasTsSub, Bool.or_eq_false_iff] at h
    cases n with
    | zero =>
      rw [List.drop_zero]
      rcases hm : matchTs2 (c :: rest) with - | x
      · rfl
      · rw [hm] at h
        exact absurd h.1 (by simp)
    | succ n =>
      rw [List.drop_succ_cons]
      exact ih (by
        rcases hm : hasTsSub rest with - | -
        · rfl
        · rw [hm] at h
          exact absurd h.2 (by simp)) n

/-- Helper: the `[METRICS]` occurrence test succeeds on any text that
embeds the tag. -/
theorem containsMetricsTag_mid (a b : List Char) :
    containsMetricsTag (a ++ "[METRICS]".toList ++ b) = true := by
  induction a with
  | nil =>
    simp only [List.nil_append, List.append_assoc]
    rw [show "[METRICS]".toList ++ b = '[' :: ("METRICS]".toList ++ b) from rfl]
    simp only [containsMetricsTag]
    rw [show '[' :: ("METRICS]".toList ++ b) = "[METRICS]".toList ++ b from rfl]
    rw [show "[METRICS]".toList.isPrefixOf ("[METRICS]".toList ++ b) = true from by
      simp [List.isPrefixOf_iff_prefix, List.prefix_append]]
    simp
  | cons x xs ih =>
    have ih2 : containsMetricsTag
        (xs ++ '[' :: 'M' :: 'E' :: 'T' :: 'R' :: 'I' :: 'C' :: 'S' :: ']' :: b) = true := by
      simpa using ih
    simp [containsMetricsTag, ih2]

/-- Log entry of the canonical tagged form, with content ending in a
newline: `HH:MM:SS - SDL Info (0): [METRICS] <content>\n`. -/
def mkEntryNL (ts c : List Char) : List Char :=
  ts ++ (" - SDL Info (0): [METRICS] ".toList ++ (c ++ ['\n']))

/-- Concatenation of canonical tagged entries. -/
def mkLogNL : List (List Char × List Char) → List Char
  | [] => []
  | (ts, c) :: es => mkEntryNL ts c ++ mkLogNL es

/-- Helper: the header lookahead fires at the start of a canonical entry. -/
theorem headerLA_header (ts Z : List Char) (hts : isTs8 ts = true) :
    headerLA (ts ++ (" - SDL Info (0): [METRICS] ".toList ++ Z)) = true := by
  unfold headerLA
  rw [matchTs2_append _ _ hts]
  show (if containsMetricsTag (" (0): [METRICS] ".toList ++ Z) = true then some ()
    else none).isSome = true
  rw [show (" (0): [METRICS] ".toList ++ Z) =
    (" (0): ".toList ++ "[METRICS]".toList ++ (' ' :: Z)) from rfl]
  rw [containsMetricsTag_mid]
  rfl

/-- Helper: the full header pattern consumes a canonical entry's header and
its trailing whitespace. -/
theorem headerMatch_header (ts Z : List Char) (hts : isTs8 ts = true) :
    headerMatch (ts ++ (" - SDL Info (0): [METRICS] ".toList ++ Z)) =
      some (ts, Z.dropWhile isPySpace) := by
  unfold headerMatch
  rw [matchTs2_append _ _ hts]
  rfl

/-- Helper: the lazy content scan runs through interference-free content
and stops at the next position where the lookahead fires. -/
theorem contentScan1_through (w next : List Char) (hstop : headerLA next = true)
    (hin : ∀ n, n < w.length → headerLA (w.drop n ++ next) = false)
    (hnl : ∀ n, n < w.length → w.drop n ++ next ≠ ['\n']) :
    contentScan1 (w ++ next) = (w, next) := by
  induction w with
  | nil =>
    cases next with
    | nil =>
      rw [show headerLA [] = false from rfl] at hstop
      cases hstop
    | cons c rest => simp [contentScan1, hstop]
  | cons x xs ih =>
    have h0 : headerLA (x :: (xs ++ next)) = false := by simpa using hin 0 (by simp)
    have hnl0 : ¬ (x :: (xs ++ next)) = ['\n'] := by simpa using hnl 0 (by simp)
    have h2 : (decide (x = '\n') && (xs ++ next).isEmpty) = false := by
      cases hxs : (xs ++ next).isEmpty
      · simp
      · cases hdx : decide (x = '\n')
        · simp
        · exfalso
          apply hnl0
          rw [of_decide_eq_true hdx, List.isEmpty_iff.mp hxs]
    have ihh := ih
      (fun n hn => by simpa using hin (n + 1) (by simpa using Nat.succ_lt_succ hn))
      (fun n hn => by simpa using hnl (n + 1) (by simpa using Nat.succ_lt_succ hn))
    simp [contentScan1, h0, h2, ihh]

/-- Helper: with no next entry, the lazy content scan stops at the anchor
position just before the final newline. -/
theorem contentScan1_to_nl (w0 : List Char)
    (hin : ∀ n, matchTs2 ((w0 ++ ['\n']).drop n) = none) :
    contentScan1 (w0 ++ ['\n']) = (w0, ['\n']) := by
  induction w0 with
  | nil => rfl
  | cons x xs ih =>
    have h0 : headerLA (x :: (xs ++ ['\n'])) = false :=
      headerLA_false_of_none _ (by simpa using hin 0)
    have h2 : (decide (x = '\n') && (xs ++ ['\n']).isEmpty) = false := by
      cases xs <;> simp
    have ihh := ih (fun n => by simpa using hin (n + 1))
    simp [contentScan1, h0, h2, ihh]

/-- Helper: the scanner finds nothing in a lone trailing newline. -/
theorem findBlocks1Aux_nl (f : Nat) : findBlocks1Aux f ['\n'] = [] := by
  cases f with
  | zero => rfl
  | succ f => cases f <;> rfl

/-- Helper: no timestamp window starts inside interference-free content
that ends in a newline, whatever follows it. -/
theorem matchTs2_cross_none (c0 next : List Char)
    (hsub : hasTsSub (c0 ++ ['\n']) = false) (n : Nat)
    (hn : n < (c0 ++ ['\n']).length) :
    matchTs2 ((c0 ++ ['\n']).drop n ++ next) = none := by
  by_cases hcase : 8 ≤ (c0 ++ ['\n']).length - n
  · have h8 : 8 ≤ ((c0 ++ ['\n']).drop n).length := by
      rw [List.length_drop]
      omega
    exact matchTs2_append_none _ _ h8 (hasTsSub_drop _ hsub n)
  · apply matchTs2_none_of_nl
    have hle : n ≤ c0.length := by
      rw [List.length_append] at hn
      simp at hn
      omega
    have hmem : '\n' ∈ (c0 ++ ['\n']).drop n := by
      rw [List.drop_append_eq_append_drop, show n - c0.length = 0 from by omega]
      simp
    have hlen : ((c0 ++ ['\n']).drop n).length ≤ 8 := by
      rw [List.length_drop]
      omega
    rw [List.take_append_eq_append_take]
    exact List.mem_append_left _ (by rwa [List.take_of_length_le hlen])

/-- Helper: stripping ignores a trailing newline. -/
theorem pyStrip_append_nl (l : List Char) : pyStrip (l ++ ['\n']) = pyStrip l := by
  unfold pyStrip
  rw [List.dropWhile_append]
  rcases he : (l.dropWhile isPySpace).isEmpty with - | -
  · rw [if_neg (by simp [he]), List.reverse_append,
      show (['\n'].reverse ++ (l.dropWhile isPySpace).reverse) =
        '\n' :: (l.dropWhile isPySpace).reverse from rfl,
      List.dropWhile_cons, if_pos (by decide)]
  · rw [if_pos (by simp [he]), show (['\n'].dropWhile isPySpace) = [] from rfl,
      List.isEmpty_iff.mp he]

/-- Helper: a list with a non-whitespace head strips to a nonempty list. -/
theorem pyStrip_ne_nil_head (x : Char) (xs : List Char) (hx : isPySpace x = false) :
    pyStrip (x :: xs) ≠ [] := by
  unfold pyStrip
  rw [List.dropWhile_cons, if_neg (by simp [hx])]
  intro hcon
  have h1 : ((x :: xs).reverse.dropWhile isPySpace) = [] := by
    have := congrArg List.reverse hcon
    simpa using this
  have h2 := List.dropWhile_eq_nil_iff.mp h1 x (by simp)
  rw [hx] at h2
  cases h2

/-- Helper: a nonempty head test for canonical-entry content. -/
def headNonWs : List Char → Bool
  | [] => false
  | x :: _ => !isPySpace x

/-- Side conditions under which a canonical tagged entry is scanned
cleanly: a valid timestamp, content free of timestamp-like windows, and
content starting with a non-whitespace character. -/
def goodC2Entry (e : List Char × List Char) : Prop :=
  isTs8 e.1 = true ∧ hasTsSub (e.2 ++ ['\n']) = false ∧ headNonWs e.2 = true

instance (e : List Char × List Char) : Decidable (goodC2Entry e) := by
  unfold goodC2Entry
  infer_instance

/-- Raw strategy-1 captures for a canonical log: every block's content is
its entry's content, with the trailing newline excluded for the last entry
only (the anchor `$` matches just before a final newline). -/
def rawBlocks : List (List Char × List Char) → List (List Char × List Char)
  | [] => []
  | [(ts, c)] => [(ts, c)]
  | (ts, c) :: e :: es => (ts, c ++ ['\n']) :: rawBlocks (e :: es)

/-- Helper: expanded shape of a canonical log. -/
theorem mkLogNL_shape (ts c : List Char) (es : List (List Char × List Char)) :
    mkLogNL ((ts, c) :: es) =
      ts ++ (" - SDL Info (0): [METRICS] ".toList ++ ((c ++ ['\n']) ++ mkLogNL es)) := by
  simp [mkLogNL, mkEntryNL]

/-- Helper: a canonical log of at least one entry is nonempty. -/
theorem mkLogNL_cons_pos (e : List Char × List Char) (es : List (List Char × List Char)) :
    0 < (mkLogNL (e :: es)).length := by
  obtain ⟨ts, c⟩ := e
  simp only [mkLogNL, mkEntryNL, List.length_append, List.length_cons]
  omega

/-- Helper: whitespace skipping is a no-op after non-whitespace content. -/
theorem dropWhile_eq_self_of_headNonWs (l r : List Char) (h : headNonWs l = true) :
    (l ++ r).dropWhile isPySpace = l ++ r := by
  cases l with
  | nil => cases h
  | cons x xs =>
    rw [List.cons_append, List.dropWhile_cons, if_neg]
    simp only [headNonWs, Bool.not_eq_eq_eq_not, Bool.not_true] at h
    simp [h]

/-- Helper: content with a non-whitespace head strips to a nonempty list. -/
theorem pyStrip_ne_nil_of_headNonWs (l : List Char) (h : headNonWs l = true) :
    pyStrip l ≠ [] := by
  cases l with
  | nil => cases h
  | cons x xs =>
    apply pyStrip_ne_nil_head
    simpa [headNonWs] using h

/-- Characterization of the strategy-1 scanner on a canonical log. -/
theorem findBlocks1Aux_mkLogNL (es : List (List Char × List Char)) :
    ∀ fuel : Nat, (∀ e ∈ es, goodC2Entry e) → (mkLogNL es).length ≤ fuel →
    findBlocks1Aux fuel (mkLogNL es) = rawBlocks es := by
  induction es with
  | nil =>
    intro fuel hg hf
    cases fuel <;> rfl
  | cons e es' ih =>
    obtain ⟨ts, c⟩ := e
    intro fuel hgood hf
    obtain ⟨hts, hsub, hhead⟩ := hgood (ts, c) (by simp)
    cases fuel with
    | zero =>
      have := mkLogNL_cons_pos (ts, c) es'
      omega
    | succ f =>
      have hne8 : ∃ hd tl, ts = hd :: tl := by
        rcases ts with - | ⟨hd, tl⟩
        · exact absurd (isTs8_length [] hts) (by decide)
        · exact ⟨hd, tl, rfl⟩
      obtain ⟨hd, tl, rfl⟩ := hne8
      have hm : headerMatch (hd :: (tl ++ (" - SDL Info (0): [METRICS] ".toList ++
          ((c ++ ['\n']) ++ mkLogNL es')))) =
          some (hd :: tl, (((c ++ ['\n']) ++ mkLogNL es')).dropWhile isPySpace) := by
        rw [← List.cons_append]
        exact headerMatch_header _ _ hts
      have hdw : (((c ++ ['\n']) ++ mkLogNL es')).dropWhile isPySpace =
          (c ++ ['\n']) ++ mkLogNL es' := by
        rw [List.append_assoc]
        exact dropWhile_eq_self_of_headNonWs c _ hhead
      rw [mkLogNL_shape, List.cons_append]
      simp only [findBlocks1Aux, hm, hdw]
      have hflen : (mkLogNL ((hd :: tl, c) :: es')).length =
          (mkEntryNL (hd :: tl) c).length + (mkLogNL es').length := by
        simp [mkLogNL]
      have hepos : 0 < (mkEntryNL (hd :: tl) c).length := by
        simp only [mkEntryNL, List.length_append, List.length_cons]
        omega
      cases es' with
      | nil =>
        simp only [mkLogNL, List.append_nil]
        rw [contentScan1_to_nl c (hasTsSub_drop _ hsub)]
        rw [findBlocks1Aux_nl]
        rfl
      | cons e2 es'' =>
        obtain ⟨ts2, c2⟩ := e2
        obtain ⟨hts2, -, -⟩ := hgood (ts2, c2) (by simp)
        have hstop : headerLA (mkLogNL ((ts2, c2) :: es'')) = true := by
          rw [mkLogNL_shape]
          exact headerLA_header _ _ hts2
        have hnpos := mkLogNL_cons_pos (ts2, c2) es''
        have hscan : contentScan1 ((c ++ ['\n']) ++ mkLogNL ((ts2, c2) :: es'')) =
            (c ++ ['\n'], mkLogNL ((ts2, c2) :: es'')) := by
          apply contentScan1_through _ _ hstop
          · intro n hn
            exact headerLA_false_of_none _ (matchTs2_cross_none c _ hsub n hn)
          · intro n hn heq
            have h1 : ((c ++ ['\n']).drop n).length +
                (mkLogNL ((ts2, c2) :: es'')).length = 1 := by
              have h0 := congrArg List.length heq
              simpa using h0
            have h2 : 0 < ((c ++ ['\n']).drop n).length := by
              rw [List.length_drop]
              omega
            omega
        rw [hscan]
        rw [ih f (fun e he => hgood e (by simp [he]))
          (by rw [hflen] at hf; omega)]
        rfl

/-- Helper: stripping the raw captures yields the stripped entry contents. -/
theorem stripFilter1_rawBlocks (es : List (List Char × List Char))
    (hgood : ∀ e ∈ es, goodC2Entry e) :
    stripFilter1 (rawBlocks es) = es.map (fun e => (some e.1, pyStrip e.2)) := by
  induction es with
  | nil => rfl
  | cons e es' ih =>
    obtain ⟨ts, c⟩ := e
    obtain ⟨-, -, hhead⟩ := hgood (ts, c) (by simp)
    have hstrip : pyStrip c ≠ [] := pyStrip_ne_nil_of_headNonWs c hhead
    have hse : (pyStrip c).isEmpty = false := by
      cases hps : pyStrip c
      · exact absurd hps hstrip
      · rfl
    cases es' with
    | nil =>
      simp only [rawBlocks, stripFilter1, List.filterMap_cons]
      rw [show (let s := pyStrip c; if s.isEmpty = true then none
          else some (some ts, s)) = some (some ts, pyStrip c) from by
        simp [hse, hstrip]]
      simp
    | cons e2 es'' =>
      simp only [rawBlocks, stripFilter1, List.filterMap_cons]
      have hse2 : (pyStrip (c ++ ['\n'])).isEmpty = false := by
        rw [pyStrip_append_nl]
        exact hse
      rw [show (let s := pyStrip (c ++ ['\n']); if s.isEmpty = true then none
          else some (some ts, s)) = some (some ts, pyStrip c) from by
        simp only [pyStrip_append_nl] at hse2 ⊢
        simp [hse2, hstrip, pyStrip_append_nl]]
      have ih2 := ih (fun e he => hgood e (by simp [he]))
      simp only [stripFilter1] at ih2
      rw [ih2]
      simp

/-- C2 (amended): on a log of canonical `HH:MM:SS - SDL Info (0):
[METRICS] ...` entries whose contents are free of timestamp-like windows,
the extractor applies strategy 1 and returns exactly one block per entry,
in order, each paired with its own captured timestamp and holding its own
stripped content. (The source tag must be literally `SDL Info`; a
strategy's results are kept only when at least one block is nonempty after
trimming, and the content of a block ends at the next position matching
`HH:MM:SS - SDL Info` eventually followed by `[METRICS]`, or at end of
text, or just before a final newline.) -/
theorem c2_tagged_extraction (es : List (List Char × List Char))
    (hgood : ∀ e ∈ es, goodC2Entry e) :
    extract_metrics_blocks (mkLogNL es) = es.map (fun e => (some e.1, pyStrip e.2)) := by
  have haux := findBlocks1Aux_mkLogNL es (mkLogNL es).length hgood le_rfl
  have hstrip := stripFilter1_rawBlocks es hgood
  simp only [extract_metrics_blocks, findBlocks1, haux, hstrip]
  cases es with
  | nil => rfl
  | cons e es' =>
    rw [if_neg (by simp)]

/-- Witness for C2 at a concrete two-entry canonical log. -/
theorem c2_tagged_extraction_witness :
    extract_metrics_blocks (mkLogNL
      [("10:00:01".toList, "Video stream: ok".toList),
       ("10:00:02".toList, "Decoding frame rate: high".toList)]) =
      [(some "10:00:01".toList, "Video stream: ok".toList),
       (some "10:00:02".toList, "Decoding frame rate: high".toList)] := by
  rw [c2_tagged_extraction
    [("10:00:01".toList, "Video stream: ok".toList),
     ("10:00:02".toList, "Decoding frame rate: high".toList)]
    (by decide)]
  decide

/-- C2 counterexample: the tagged-with-timestamp strategy recognizes only
the literal source tag `SDL Info`, and a strategy that matched is still
abandoned when all of its blocks strip to nothing. On the first input the
tagged line uses the tag `Foo Bar` and its block loses its timestamp; on
the second input strategy 1 yields a (whitespace-only) match, yet the
output comes from strategy 2, untimestamped. -/
theorem c2_counterexample_tag_and_fallback :
    (extract_metrics_blocks
        "00:00:01 - Foo Bar (0): [METRICS] Video stream: stuff".toList =
      [(none, "Video stream: stuff".toList)]) ∧
    (findBlocks1
        "00:00:01 - SDL Info (0): [METRICS] \n00:00:02 - SDL Info x [METRICS] hello".toList =
      [("00:00:01".toList, [])] ∧
     extract_metrics_blocks
        "00:00:01 - SDL Info (0): [METRICS] \n00:00:02 - SDL Info x [METRICS] hello".toList =
      [(none, "00:00:02 - SDL Info x".toList), (none, "hello".toList)]) := by
  refine ⟨by decide, by decide, by decide⟩
